import Mathlib

/-!
Verification development for the TikZ editor core (coordinate system,
parser, renderer tick generation).

Modelling conventions:
* JavaScript numbers are modelled exactly, over a linear ordered field `K`
  (instantiated at `ℚ` for concrete computations) instead of IEEE doubles.
* External, non-deterministic or environment-provided facilities (the
  sandboxed `Function`-based expression evaluator, `Math.sqrt`, `Math.cos`,
  `Math.sin`, `Math.atan2`, `Math.PI`) are collected in a `MathModel`
  parameter; theorems either hold for every such model or assume the
  defining properties of the real functions (for example `s * s = d` for
  the square root of `d`).
* JavaScript `Map`s are modelled as association lists where `set` conses
  and `get` takes the first (that is, most recent) binding.
* JavaScript strings are processed as `List Char`.
-/

namespace TikZ

/-! ## JavaScript string and number primitives -/

/-- JavaScript whitespace (the `\s` character class and `trim`),
restricted to its ASCII part. -/
def isJsSpace (c : Char) : Bool :=
  c = ' ' || c = '\t' || c = '\n' || c = '\r' || c = '\x0b' || c = '\x0c'

def isAsciiDigit (c : Char) : Bool := '0' ≤ c && c ≤ '9'

def isAsciiAlpha (c : Char) : Bool := ('a' ≤ c && c ≤ 'z') || ('A' ≤ c && c ≤ 'Z')

/-- A character allowed in the tail of a TikZ identifier: `[a-zA-Z0-9_-]`. -/
def isNameTail (c : Char) : Bool := isAsciiAlpha c || isAsciiDigit c || c = '_' || c = '-'

def trimList (l : List Char) : List Char :=
  (l.dropWhile isJsSpace).reverse.dropWhile isJsSpace |>.reverse

/-- JavaScript `String.prototype.trim` (ASCII whitespace). -/
def jsTrim (s : String) : String := ⟨trimList s.data⟩

def splitOnCharAux (sep : Char) : List Char → List Char → List (List Char)
  | [], acc => [acc.reverse]
  | c :: rest, acc =>
    if c = sep then acc.reverse :: splitOnCharAux sep rest []
    else splitOnCharAux sep rest (c :: acc)

/-- JavaScript `String.prototype.split` with a one-character separator. -/
def splitOnChar (sep : Char) (s : String) : List String :=
  (splitOnCharAux sep s.data []).map fun l => ⟨l⟩

def digitVal (c : Char) : ℕ := c.toNat - 48

def takeDigits : List Char → List Char × List Char
  | [] => ([], [])
  | c :: rest =>
    if isAsciiDigit c then
      let (ds, r) := takeDigits rest
      (c :: ds, r)
    else ([], c :: rest)

def digitsToNat (ds : List Char) : ℕ := ds.foldl (fun n c => 10 * n + digitVal c) 0

/-- The exact rational value of an integer part together with a fractional
digit string (the value of the decimal literal `ip.fracDigits`). -/
def decimalValue (neg : Bool) (ip : ℕ) (frac : List Char) : ℚ :=
  let mag : ℚ := (ip : ℚ) + (digitsToNat frac : ℚ) / (10 : ℚ) ^ frac.length
  if neg then -mag else mag

/-- JavaScript `parseFloat`, restricted to plain decimal notation
(optional sign, digits, optional fraction); it parses a longest valid
prefix after skipping leading whitespace and yields `none` where
`parseFloat` yields `NaN`.  Exponent notation is not used by any input
this development evaluates concretely. -/
def jsParseFloat (s : String) : Option ℚ :=
  let l := s.data.dropWhile isJsSpace
  let (neg, l) : Bool × List Char :=
    match l with
    | '-' :: rest => (true, rest)
    | '+' :: rest => (false, rest)
    | _ => (false, l)
  let (ip, l) := takeDigits l
  let (fp, _) : List Char × List Char :=
    match l with
    | '.' :: rest => takeDigits rest
    | _ => ([], l)
  if ip.isEmpty && fp.isEmpty then none
  else some (decimalValue neg (digitsToNat ip) fp)

/-- JavaScript `parseInt` with no radix argument, restricted to decimal
notation; `none` where `parseInt` yields `NaN`. -/
def jsParseInt (s : String) : Option ℤ :=
  let l := s.data.dropWhile isJsSpace
  let (neg, l) : Bool × List Char :=
    match l with
    | '-' :: rest => (true, rest)
    | '+' :: rest => (false, rest)
    | _ => (false, l)
  let (ip, _) := takeDigits l
  if ip.isEmpty then none
  else some (if neg then -(digitsToNat ip : ℤ) else (digitsToNat ip : ℤ))

def fracDigits (fuel : ℕ) (frac : ℚ) : List Char :=
  match fuel with
  | 0 => []
  | n + 1 =>
    if frac = 0 then []
    else
      let d := ⌊frac * 10⌋.toNat
      Char.ofNat (48 + d) :: fracDigits n (frac * 10 - d)

/-- JavaScript `Number.prototype.toString` modelled for terminating
decimals (at most 20 fractional digits); numbers whose expansion does
not terminate within that bound are rendered truncated, which only ever
diverts `parseNumericExpression` from its fast path to its (abstract)
evaluator path. -/
def decimalToString (q : ℚ) : String :=
  let a := |q|
  let ip := ⌊a⌋.toNat
  let ds := fracDigits 20 (a - ip)
  (if q < 0 then "-" else "") ++ Nat.repr ip ++ (if ds.isEmpty then "" else "." ++ ⟨ds⟩)

/-- `s.replace(/^\+/, "")`: drop one leading plus sign. -/
def dropLeadingPlus (s : String) : String :=
  match s.data with
  | '+' :: rest => ⟨rest⟩
  | _ => s

/-! ## Regular-expression models (`src/src/coordinates.js`) -/

/-- The whole-string decimal pattern `-?\d+\.?\d*` together with the
`parseFloat` of its match. -/
def matchDecimal (l : List Char) : Option ℚ :=
  let (neg, l) : Bool × List Char :=
    match l with
    | '-' :: rest => (true, rest)
    | _ => (false, l)
  let (ip, l) := takeDigits l
  if ip.isEmpty then none
  else
    let (fp, l) : List Char × List Char :=
      match l with
      | '.' :: rest => takeDigits rest
      | _ => ([], l)
    if l.isEmpty then some (decimalValue neg (digitsToNat ip) fp) else none

/-- `s.match(/^(-?\d+\.?\d*)\s*:\s*(-?\d+\.?\d*)$/)` with both captures
run through `parseFloat`: used for polar coordinates
(coordinates.js 179) and for the `domain` option (parser 1404). -/
def matchColonPair (s : String) : Option (ℚ × ℚ) :=
  let l := s.data
  let (neg, l) : Bool × List Char :=
    match l with
    | '-' :: rest => (true, rest)
    | _ => (false, l)
  let (ip, l) := takeDigits l
  if ip.isEmpty then none
  else
    let (fp, l) : List Char × List Char :=
      match l with
      | '.' :: rest => takeDigits rest
      | _ => ([], l)
    let l := l.dropWhile isJsSpace
    match l with
    | ':' :: l =>
      let l := l.dropWhile isJsSpace
      match matchDecimal l with
      | some radius => some (decimalValue neg (digitsToNat ip) fp, radius)
      | none => none
    | _ => none

/-- `^[a-zA-Z_][a-zA-Z0-9_-]*$`: a bare coordinate or node name. -/
def matchName (s : String) : Bool :=
  match s.data with
  | [] => false
  | c :: rest => (isAsciiAlpha c || c = '_') && rest.all isNameTail

/-- `^([a-zA-Z_][a-zA-Z0-9_-]*)\.([a-zA-Z]+(?:\s+[a-zA-Z]+)?)$`:
a `node.anchor` reference; the anchor capture keeps its spacing verbatim
(compound anchors such as `north west`). -/
def matchAnchorRef (s : String) : Option (String × String) :=
  match s.data with
  | [] => none
  | c :: rest =>
    if isAsciiAlpha c || c = '_' then
      let name := c :: rest.takeWhile isNameTail
      match rest.dropWhile isNameTail with
      | '.' :: afterDot =>
        let w1 := afterDot.takeWhile fun d => isAsciiAlpha d
        let r1 := afterDot.dropWhile fun d => isAsciiAlpha d
        if w1.isEmpty then none
        else if r1.isEmpty then some (⟨name⟩, ⟨w1⟩)
        else
          let sp := r1.takeWhile isJsSpace
          let r2 := r1.dropWhile isJsSpace
          if sp.isEmpty then none
          else
            let w2 := r2.takeWhile fun d => isAsciiAlpha d
            let r3 := r2.dropWhile fun d => isAsciiAlpha d
            if w2.isEmpty || !r3.isEmpty then none
            else some (⟨name⟩, ⟨w1 ++ sp ++ w2⟩)
      | _ => none
    else none

/-! ## Points and the coordinate system (`src/src/coordinates.js`) -/

variable {K : Type} [LinearOrderedField K]

structure Point (K : Type) where
  x : K
  y : K
deriving DecidableEq

def Point.add (p q : Point K) : Point K := ⟨p.x + q.x, p.y + q.y⟩

def Point.sub (p q : Point K) : Point K := ⟨p.x - q.x, p.y - q.y⟩

def Point.scale (p : Point K) (factor : K) : Point K := ⟨p.x * factor, p.y * factor⟩

structure P3 (K : Type) where
  x : K
  y : K
  z : K
deriving DecidableEq

structure Scale3 (K : Type) where
  x : K
  y : K
  z : K
deriving DecidableEq

structure Proj2 (K : Type) where
  x : K
  y : K
deriving DecidableEq

structure NodeData (K : Type) where
  center : Point K
  anchors : List (String × Point K)
  shape : String
  width : K
  height : K
deriving DecidableEq

structure CoordinateSystem (K : Type) where
  namedCoordinates : List (String × Point K)
  nodes : List (String × NodeData K)
  currentPosition : Point K
  currentPosition3D : P3 K
  axisScale : Scale3 K
  globalScale : K
  zProjection : Proj2 K
deriving DecidableEq

/-- The `CoordinateSystem` constructor's initial state. -/
def CoordinateSystem.init : CoordinateSystem K :=
  { namedCoordinates := []
    nodes := []
    currentPosition := ⟨0, 0⟩
    currentPosition3D := ⟨0, 0, 0⟩
    axisScale := ⟨1, 1, 1⟩
    globalScale := 1
    zProjection := ⟨1, 1⟩ }

def CoordinateSystem.reset (cs : CoordinateSystem K) : CoordinateSystem K :=
  { cs with currentPosition := ⟨0, 0⟩, currentPosition3D := ⟨0, 0, 0⟩ }

def CoordinateSystem.project3D (cs : CoordinateSystem K) (x y z : K) : Point K :=
  let scaledX := x * cs.axisScale.x * cs.globalScale
  let scaledY := y * cs.axisScale.y * cs.globalScale
  let scaledZ := z * cs.axisScale.z * cs.globalScale
  ⟨scaledX + scaledZ * cs.zProjection.x, scaledY + scaledZ * cs.zProjection.y⟩

def CoordinateSystem.setNamedCoordinate (cs : CoordinateSystem K) (name : String)
    (point : Point K) : CoordinateSystem K :=
  { cs with namedCoordinates := (name, point) :: cs.namedCoordinates }

def CoordinateSystem.registerNode (cs : CoordinateSystem K) (name : String) (point : Point K)
    (anchors : List (String × Point K)) (shape : String := "rectangle")
    (width : K := 1) (height : K := 1 / 2) : CoordinateSystem K :=
  { cs with
      nodes := (name, { center := point, anchors, shape, width, height }) :: cs.nodes }

/-- The outcome of running a JavaScript numeric expression: it may throw,
produce a non-finite number (`NaN`, `±Infinity`), or produce a finite
value. -/
inductive JsEval (K : Type) where
  | thrown : JsEval K
  | nonfinite : JsEval K
  | val (v : K) : JsEval K
deriving DecidableEq

/-- The environment-provided mathematical facilities the coordinate and
plot code calls: the browser's `Math` functions and the two uses of the
sandboxed `Function`-based evaluator.  `jsEval` models the evaluator
inside `parseNumericExpression` (`none` stands for an exception or a
non-finite result); `plotEval` models the rewrite-and-evaluate pipeline
of `Parser.evaluateExpression` (its regex rewriting followed by the
`Function` call) up to but not including its final failure handling,
which is embedded. -/
structure MathModel (K : Type) where
  jsEval : String → Option K
  plotEval : String → String → K → JsEval K
  sqrt : K → K
  cos : K → K
  sin : K → K
  atan2 : K → K → K
  pi : K

/-! ## The calc-expression scanner (`parseCalcExpression`, coordinates.js 96-163) -/

/-- Scan to the unmatched closing parenthesis at depth 0, returning the
consumed content and the remainder after that parenthesis (the loops at
coordinates.js 103-117 and 141-155). -/
def scanBalanced : List Char → ℕ → List Char → Option (List Char × List Char)
  | [], _, _ => none
  | c :: rest, depth, acc =>
    if c = '(' then scanBalanced rest (depth + 1) (c :: acc)
    else if c = ')' then
      if depth = 0 then some (acc.reverse, rest)
      else scanBalanced rest (depth - 1) (c :: acc)
    else scanBalanced rest depth (c :: acc)

inductive CalcSplit where
  | single (l : String) : CalcSplit
  | combine (l : String) (isAdd : Bool) (r : String) : CalcSplit
deriving DecidableEq

/-- The string analysis of `parseCalcExpression`: for a trimmed
coordinate string, either `$(A)$` (one side), `$(A) + (B)$` or
`$(A) - (B)$` (two sides and an operator), or no calc expression at
all.  The index arithmetic of the source is mirrored through the
residual lists (`i >= trimmed.length - 1` becomes "nothing follows the
closing parenthesis"). -/
def splitCalcParts (trimmed : String) : Option CalcSplit :=
  let startsOk : Bool := match trimmed.data with
    | '$' :: '(' :: _ => true
    | _ => false
  let endsOk : Bool := match trimmed.data.reverse with
    | '$' :: ')' :: _ => true
    | _ => false
  if startsOk && endsOk then
    match scanBalanced (trimmed.data.drop 2) 0 [] with
    | none => none
    | some (left, rest1) =>
      if rest1.isEmpty then none
      else
        let rest2 := rest1.dropWhile isJsSpace
        match rest2 with
        | '$' :: rest3 => if rest3.isEmpty then some (.single ⟨left⟩) else none
        | op :: rest3 =>
          if op = '+' || op = '-' then
            match rest3.dropWhile isJsSpace with
            | '(' :: rest4 =>
              match scanBalanced rest4 0 [] with
              | none => none
              | some (right, rest5) =>
                if rest5.isEmpty then none
                else if trimList rest5 = ['$'] then
                  some (.combine ⟨left⟩ (op = '+') ⟨right⟩)
                else none
            | _ => none
          else none
        | [] => none
  else none

/-! ## Coordinate resolution (`CoordinateSystem.parseCoordinate`, coordinates.js 93-325) -/

/-- `parseNumericExpression` (coordinates.js 204-218): the `parseFloat`
fast path for canonical decimal literals, then the character whitelist
`^[0-9+\-*\/().\s]+$` guarding the sandboxed evaluator. -/
def parseNumericExpression (M : MathModel K) (value : String) : Option K :=
  let expr := jsTrim value
  if expr.data.isEmpty then none
  else
    let fast : Option ℚ :=
      match jsParseFloat expr with
      | some d => if decimalToString d = dropLeadingPlus expr then some d else none
      | none => none
    match fast with
    | some d => some ((d : ℚ) : K)
    | none =>
      if expr.data.all fun c =>
          isAsciiDigit c || c = '+' || c = '-' || c = '*' || c = '/' ||
          c = '(' || c = ')' || c = '.' || isJsSpace c then
        M.jsEval expr
      else none

/-- `CoordinateSystem.parseCoordinate`, with the JavaScript `this`
threaded explicitly: the result is the returned `Point` together with
the possibly updated coordinate system.  The fuel only bounds the
recursion through calc expressions, whose operands are strict substrings
of the input; with fuel at least the string length it is never
exhausted. -/
def parseCoordinate (M : MathModel K) :
    ℕ → CoordinateSystem K → String → Bool → Bool → Point K × CoordinateSystem K
  | 0, cs, _, _, _ => (cs.currentPosition, cs)
  | fuel + 1, cs, coordString, isRelative, updatePosition =>
    let trimmed := jsTrim coordString
    let calcRes : Option (Point K × CoordinateSystem K) :=
      match splitCalcParts trimmed with
      | none => none
      | some (.single l) => some (parseCoordinate M fuel cs (jsTrim l) false false)
      | some (.combine l isAdd r) =>
        let (leftPoint, cs1) := parseCoordinate M fuel cs (jsTrim l) false false
        let (rightPoint, cs2) := parseCoordinate M fuel cs1 (jsTrim r) false false
        some ((if isAdd then leftPoint.add rightPoint else leftPoint.sub rightPoint), cs2)
    match calcRes with
    | some (calcPoint, cs1) =>
      let result := if isRelative then calcPoint.add cs1.currentPosition else calcPoint
      if updatePosition then
        (result, { cs1 with
                     currentPosition := result
                     currentPosition3D := ⟨result.x, result.y, 0⟩ })
      else (result, cs1)
    | none =>
    match matchColonPair trimmed with
    | some (angle, radius) =>
      let x := ((radius : ℚ) : K) * M.cos (((angle : ℚ) : K) * M.pi / 180)
      let y := ((radius : ℚ) : K) * M.sin (((angle : ℚ) : K) * M.pi / 180)
      let point3D : P3 K :=
        if isRelative then
          ⟨cs.currentPosition3D.x + x, cs.currentPosition3D.y + y, cs.currentPosition3D.z⟩
        else ⟨x, y, 0⟩
      let projected := cs.project3D point3D.x point3D.y point3D.z
      if updatePosition then
        (projected, { cs with currentPosition3D := point3D, currentPosition := projected })
      else (projected, cs)
    | none =>
    let parts := ((splitOnChar ',' trimmed).map jsTrim).filter fun p => !p.data.isEmpty
    if parts.length = 3 then
      match parseNumericExpression M parts[0]!, parseNumericExpression M parts[1]!,
          parseNumericExpression M parts[2]! with
      | some xVal, some yVal, some zVal =>
        let point3D : P3 K :=
          if isRelative then
            ⟨cs.currentPosition3D.x + xVal, cs.currentPosition3D.y + yVal,
              cs.currentPosition3D.z + zVal⟩
          else ⟨xVal, yVal, zVal⟩
        let projected := cs.project3D point3D.x point3D.y point3D.z
        if updatePosition then
          (projected, { cs with currentPosition3D := point3D, currentPosition := projected })
        else (projected, cs)
      | _, _, _ => (cs.currentPosition, cs)
    else if parts.length = 2 then
      match parseNumericExpression M parts[0]!, parseNumericExpression M parts[1]! with
      | some xVal, some yVal =>
        let point3D : P3 K :=
          if isRelative then
            ⟨cs.currentPosition3D.x + xVal, cs.currentPosition3D.y + yVal,
              cs.currentPosition3D.z⟩
          else ⟨xVal, yVal, 0⟩
        let projected := cs.project3D point3D.x point3D.y point3D.z
        if updatePosition then
          (projected, { cs with currentPosition3D := point3D, currentPosition := projected })
        else (projected, cs)
      | _, _ => (cs.currentPosition, cs)
    else
      let anchorCase : Option (Point K × CoordinateSystem K) :=
        match matchAnchorRef trimmed with
        | some (nodeName, anchorName) =>
          match cs.nodes.lookup nodeName with
          | some node =>
            match node.anchors.lookup anchorName with
            | some point =>
              -- note: only the 2D cursor is updated here, not the 3D cursor
              some (point, if updatePosition then { cs with currentPosition := point } else cs)
            | none =>
              some (node.center,
                if updatePosition then { cs with currentPosition := node.center } else cs)
          | none => none
        | none => none
      match anchorCase with
      | some r => r
      | none =>
      let namedCase : Option (Point K × CoordinateSystem K) :=
        if matchName trimmed then
          match cs.nodes.lookup trimmed with
          | some node =>
            some (node.center,
              if updatePosition then
                { cs with
                    currentPosition := node.center
                    currentPosition3D := ⟨node.center.x, node.center.y, 0⟩ }
              else cs)
          | none =>
            match cs.namedCoordinates.lookup trimmed with
            | some point =>
              some (point,
                if updatePosition then
                  { cs with
                      currentPosition := point
                      currentPosition3D := ⟨point.x, point.y, 0⟩ }
                else cs)
            | none => none
        else none
      match namedCase with
      | some r => r
      | none => (cs.currentPosition, cs)

/-! ## Node boundary intersection (`getNodeBoundaryPoint`, coordinates.js 401-490) -/

/-- `t = Math.min(t, c)` where `t` starts as `Infinity`: `none` models
`Infinity`. -/
def jsMinInto (t : Option K) (c : K) : Option K :=
  match t with
  | none => some c
  | some v => some (min v c)

/-- `CoordinateSystem.getNodeBoundaryPoint`.  The square root is taken
from the `MathModel`; the `width`/`height` null-guards of the source are
vacuous here because `registerNode` always stores field values. -/
def getNodeBoundaryPoint (M : MathModel K) (cs : CoordinateSystem K) (nodeName : String)
    (targetPoint : Point K) : Point K :=
  match cs.nodes.lookup nodeName with
  | none => targetPoint
  | some node =>
    let center := node.center
    let width := node.width
    let height := node.height
    let dx := targetPoint.x - center.x
    let dy := targetPoint.y - center.y
    if dx = 0 ∧ dy = 0 then center
    else
      let hw := width / 2
      let hh := height / 2
      if node.shape = "circle" then
        let r := max hw hh
        let dist := M.sqrt (dx * dx + dy * dy)
        let scale := r / dist
        ⟨center.x + dx * scale, center.y + dy * scale⟩
      else if node.shape = "ellipse" then
        let angle := M.atan2 dy dx
        let x := hw * M.cos angle
        let y := hh * M.sin angle
        ⟨center.x + x, center.y + y⟩
      else
        let dist := M.sqrt (dx * dx + dy * dy)
        let nx := dx / dist
        let ny := dy / dist
        let t0 : Option K := none
        let t1 :=
          if nx ≠ 0 then
            let tRight := hw / nx
            let ta := if 0 < tRight ∧ |ny * tRight| ≤ hh then jsMinInto t0 tRight else t0
            let tLeft := -hw / nx
            if 0 < tLeft ∧ |ny * tLeft| ≤ hh then jsMinInto ta tLeft else ta
          else t0
        let t2 :=
          if ny ≠ 0 then
            let tTop := hh / ny
            let tb := if 0 < tTop ∧ |nx * tTop| ≤ hw then jsMinInto t1 tTop else t1
            let tBottom := -hh / ny
            if 0 < tBottom ∧ |nx * tBottom| ≤ hw then jsMinInto tb tBottom else tb
          else t1
        match t2 with
        | some t => ⟨center.x + nx * t, center.y + ny * t⟩
        | none => center

/-! ## Coordinate tokens (`parseCoordinateToken`, coordinates.js 499-543) -/

structure CoordTokenResult (K : Type) where
  point : Point K
  isRelative : Bool
  updatesPosition : Bool
  nodeName : Option String
  anchorNodeName : Option String
  anchorName : Option String
deriving DecidableEq

/-- `s.replace(/^\(/, "").replace(/\)$/, "")`: remove one leading and one
trailing parenthesis. -/
def stripParens (s : String) : String :=
  let s1 : List Char :=
    match s.data with
    | '(' :: rest => rest
    | l => l
  match s1.reverse with
  | ')' :: rest => ⟨rest.reverse⟩
  | _ => ⟨s1⟩

/-- The `++`/`+` prefix analysis of `parseCoordinateToken`
(coordinates.js 500-515): (isRelative, updatesPosition, rest of the
value). -/
def coordPrefix (value : String) : Bool × Bool × String :=
  match value.data with
  | '+' :: '+' :: rest => (true, true, ⟨rest⟩)
  | '+' :: rest => (true, false, ⟨rest⟩)
  | l => (false, true, ⟨l⟩)

/-- `parseCoordinateToken`, with the coordinate system threaded in and
out.  The fuel is passed through to `parseCoordinate`. -/
def parseCoordinateToken (M : MathModel K) (fuel : ℕ) (cs : CoordinateSystem K)
    (value : String) : CoordTokenResult K × CoordinateSystem K :=
  let (isRelative, updatesPosition, coordString0) : Bool × Bool × String :=
    coordPrefix value
  let coordString := stripParens coordString0
  let trimmed := jsTrim coordString
  let (anchorNodeName, anchorName) : Option String × Option String :=
    match matchAnchorRef trimmed with
    | some (n, a) =>
      if !isRelative && (cs.nodes.lookup n).isSome then (some n, some a) else (none, none)
    | none => (none, none)
  let nodeName : Option String :=
    if matchName trimmed && !isRelative && (cs.nodes.lookup trimmed).isSome then
      some trimmed
    else none
  let (point, cs1) := parseCoordinate M fuel cs coordString isRelative updatesPosition
  (⟨point, isRelative, updatesPosition, nodeName, anchorNodeName, anchorName⟩, cs1)

/-! ## Plot sampling and expression evaluation (parser 1393-1497) -/

/-- `Parser.evaluateExpression` (1462-1497): the rewrite-and-`Function`
pipeline is the `plotEval` oracle; the embedded part is the failure
handling — an exception (`catch`) or a non-finite result
(`isNaN || !isFinite`) yields `0`. -/
def evaluateExpression (M : MathModel K) (expression varName : String) (value : K) : K :=
  match M.plotEval expression varName value with
  | .val v => v
  | .thrown => 0
  | .nonfinite => 0

/-- The sampling loop of `Parser.parsePlot` (1441-1448): `n` points with
`x = domain.min + i * step`, `step = (domain.max - domain.min)/(samples - 1)`. -/
def plotSamplePoints (dmin dmax : K) (n : ℕ) (evalY : K → K) : List (Point K) :=
  let step := (dmax - dmin) / ((n : K) - 1)
  (List.range n).map fun (i : ℕ) => ⟨dmin + (i : K) * step, evalY (dmin + (i : K) * step)⟩

/-! ## Tokens (`Lexer`, src/src/renderer.js 1936-2239)

The parser imports `Lexer` and `TokenType` from `lexer.js`; that module's
code appears in the staged sources at src/src/renderer.js 1936-2239 and is
embedded here.  Note that `TokenType` has no `PLOT` entry, so the parser's
`case TokenType.PLOT` (parser 895) compares token types against
`undefined` and never matches. -/

/-- `TokenType` (renderer 1940-1972). -/
inductive TokType where
  | COMMAND | COORDINATE | OPTION_START | OPTION_END | BRACE_START | BRACE_END
  | LINE_TO | CURVE_TO | TO | CYCLE | ARC | CIRCLE | ELLIPSE | RECTANGLE
  | GRID | NODE | AT | AND | CONTROLS | SEMICOLON | COMMA | EQUALS | COLON
  | NUMBER | IDENTIFIER | STRING | PLUS | SLASH | DOT | EOF | ERROR
deriving DecidableEq

/-- The string each `TokenType` member holds (renderer 1940-1972), as
interpolated into parser error messages. -/
def tokTypeName : TokType → String
  | .COMMAND => "COMMAND"
  | .COORDINATE => "COORDINATE"
  | .OPTION_START => "OPTION_START"
  | .OPTION_END => "OPTION_END"
  | .BRACE_START => "BRACE_START"
  | .BRACE_END => "BRACE_END"
  | .LINE_TO => "LINE_TO"
  | .CURVE_TO => "CURVE_TO"
  | .TO => "TO"
  | .CYCLE => "CYCLE"
  | .ARC => "ARC"
  | .CIRCLE => "CIRCLE"
  | .ELLIPSE => "ELLIPSE"
  | .RECTANGLE => "RECTANGLE"
  | .GRID => "GRID"
  | .NODE => "NODE"
  | .AT => "AT"
  | .AND => "AND"
  | .CONTROLS => "CONTROLS"
  | .SEMICOLON => "SEMICOLON"
  | .COMMA => "COMMA"
  | .EQUALS => "EQUALS"
  | .COLON => "COLON"
  | .NUMBER => "NUMBER"
  | .IDENTIFIER => "IDENTIFIER"
  | .STRING => "STRING"
  | .PLUS => "PLUS"
  | .SLASH => "SLASH"
  | .DOT => "DOT"
  | .EOF => "EOF"
  | .ERROR => "ERROR"

/-- A token position (`getPosition`, renderer 2022-2024): 1-based line and
column.  The source record also carries the raw character `offset`, which
no parser code ever reads; the model keeps line and column. -/
structure SrcPos where
  line : ℕ
  column : ℕ
deriving DecidableEq

/-- A token's `value`: a string for every token kind except NUMBER, whose
value is `parseFloat` of the lexeme (renderer 2060; `none` models NaN,
which no reachable `readNumber` call produces), and EOF, whose value is
`null` (renderer 2157). -/
inductive TokValue where
  | vstr (s : String)
  | vnum (q : Option ℚ)
  | vnull
deriving DecidableEq

/-- JavaScript string coercion of a token value, as evaluated wherever the
parser uses a value in string position (`current += token.value`,
concatenation with coordinate prefixes, error messages). -/
def TokValue.jsString : TokValue → String
  | .vstr s => s
  | .vnum (some q) => decimalToString q
  | .vnum none => "NaN"
  | .vnull => "null"

/-- `Token` (renderer 1974-1980). -/
structure Token where
  type : TokType
  value : TokValue
  position : SrcPos
deriving DecidableEq

/-- The `Lexer` state (renderer 1982-1988): the input ahead of the cursor
(`input.slice(position)`), and the 1-based line and column. -/
structure LexState where
  input : List Char
  line : ℕ
  column : ℕ
deriving DecidableEq

def LexState.getPos (st : LexState) : SrcPos := ⟨st.line, st.column⟩

/-- `advance()` (renderer 1994-2004): consume one character, tracking the
line and column.  Advancing at the end of input (where the source would
read `undefined` and bump the column) is never reached: every `advance`
call in the lexer is guarded by a successful `peek`. -/
def lexAdvance (st : LexState) : LexState :=
  match st.input with
  | [] => { st with column := st.column + 1 }
  | c :: rest =>
    if c = '\n' then ⟨rest, st.line + 1, 1⟩
    else ⟨rest, st.line, st.column + 1⟩

/-- The comment loop of `skipWhitespace` (renderer 2013-2015): consume up
to (not including) the next newline. -/
def skipCommentChars : ℕ → LexState → LexState
  | 0, st => st
  | fuel + 1, st =>
    match st.input with
    | [] => st
    | c :: _ => if c = '\n' then st else skipCommentChars fuel (lexAdvance st)

/-- `skipWhitespace()` (renderer 2006-2020). -/
def skipWhitespace : ℕ → LexState → LexState
  | 0, st => st
  | fuel + 1, st =>
    match st.input with
    | [] => st
    | c :: _ =>
      if c = ' ' || c = '\t' || c = '\n' || c = '\r' then
        skipWhitespace fuel (lexAdvance st)
      else if c = '%' then
        skipWhitespace fuel (skipCommentChars st.input.length st)
      else st

/-- A `while (... && p(this.peek())) value += this.advance()` run. -/
def lexTakeWhile (p : Char → Bool) : ℕ → LexState → List Char → List Char × LexState
  | 0, st, acc => (acc.reverse, st)
  | fuel + 1, st, acc =>
    match st.input with
    | [] => (acc.reverse, st)
    | c :: _ =>
      if p c then lexTakeWhile p fuel (lexAdvance st) (c :: acc)
      else (acc.reverse, st)

/-- `readNumber()` (renderer 2038-2061): optional sign, digit run,
optional `.digits` fraction; the token value is `parseFloat` of the
collected lexeme. -/
def readNumber (st : LexState) : Token × LexState :=
  let pos := st.getPos
  let (sign, st) : List Char × LexState :=
    match st.input with
    | c :: _ => if c = '-' || c = '+' then ([c], lexAdvance st) else ([], st)
    | [] => ([], st)
  let (intPart, st) := lexTakeWhile isAsciiDigit st.input.length st []
  let (fracPart, st) : List Char × LexState :=
    match st.input with
    | '.' :: d :: _ =>
      if isAsciiDigit d then
        let st1 := lexAdvance st
        let (ds, st2) := lexTakeWhile isAsciiDigit st1.input.length st1 []
        ('.' :: ds, st2)
      else ([], st)
    | _ => ([], st)
  (⟨.NUMBER, .vnum (jsParseFloat ⟨sign ++ intPart ++ fracPart⟩), pos⟩, st)

/-- The keyword table of `readIdentifier` (renderer 2072-2084).  It has no
`plot` entry: `plot` lexes as an IDENTIFIER. -/
def lexKeywords : List (String × TokType) :=
  [("to", .TO), ("cycle", .CYCLE), ("arc", .ARC), ("circle", .CIRCLE),
   ("ellipse", .ELLIPSE), ("rectangle", .RECTANGLE), ("grid", .GRID),
   ("node", .NODE), ("at", .AT), ("and", .AND), ("controls", .CONTROLS)]

/-- `readIdentifier()` (renderer 2063-2088): a run of `isAlphaNumeric`
characters (`[a-zA-Z0-9_-]`, renderer 2034-2036), mapped through the
keyword table (`keywords[value] || IDENTIFIER`). -/
def readIdentifier (st : LexState) : Token × LexState :=
  let pos := st.getPos
  let (w, st) := lexTakeWhile isNameTail st.input.length st []
  let value : String := ⟨w⟩
  (⟨(lexKeywords.lookup value).getD .IDENTIFIER, .vstr value, pos⟩, st)

/-- `readCommand()` (renderer 2090-2100): a backslash followed by a
(possibly empty) alphabetic run. -/
def readCommand (st : LexState) : Token × LexState :=
  let pos := st.getPos
  let st := lexAdvance st
  let (w, st) := lexTakeWhile isAsciiAlpha st.input.length st []
  (⟨.COMMAND, .vstr ⟨'\\' :: w⟩, pos⟩, st)

/-- The depth-tracking loop of `readCoordinate` (renderer 2109-2121): the
closing parenthesis at depth 0 is consumed but not collected; running out
of input returns what was collected. -/
def readCoordAux : ℕ → LexState → ℕ → List Char → List Char × LexState
  | 0, st, _, acc => (acc.reverse, st)
  | fuel + 1, st, depth, acc =>
    match st.input with
    | [] => (acc.reverse, st)
    | c :: _ =>
      if c = '(' then readCoordAux fuel (lexAdvance st) (depth + 1) (c :: acc)
      else if c = ')' then
        if depth = 1 then (acc.reverse, lexAdvance st)
        else readCoordAux fuel (lexAdvance st) (depth - 1) (c :: acc)
      else readCoordAux fuel (lexAdvance st) depth (c :: acc)

/-- `readCoordinate()` (renderer 2102-2124): the parenthesised content,
trimmed. -/
def readCoordinate (st : LexState) : Token × LexState :=
  let pos := st.getPos
  let st := lexAdvance st
  let (content, st) := readCoordAux (st.input.length + 1) st 1 []
  (⟨.COORDINATE, .vstr (jsTrim ⟨content⟩), pos⟩, st)

/-- The depth-tracking loop of `readBraceContent` (renderer 2133-2148):
inner braces are collected, the closing brace at depth 0 is consumed but
not collected. -/
def readBraceAux : ℕ → LexState → ℕ → List Char → List Char × LexState
  | 0, st, _, acc => (acc.reverse, st)
  | fuel + 1, st, depth, acc =>
    match st.input with
    | [] => (acc.reverse, st)
    | c :: _ =>
      if c = '\x7b' then readBraceAux fuel (lexAdvance st) (depth + 1) (c :: acc)
      else if c = '\x7d' then
        if depth = 1 then (acc.reverse, lexAdvance st)
        else readBraceAux fuel (lexAdvance st) (depth - 1) (c :: acc)
      else readBraceAux fuel (lexAdvance st) depth (c :: acc)

/-- `readBraceContent()` (renderer 2126-2151): the braced content as one
STRING token, untrimmed. -/
def readBraceContent (st : LexState) : Token × LexState :=
  let pos := st.getPos
  let st := lexAdvance st
  let (content, st) := readBraceAux (st.input.length + 1) st 1 []
  (⟨.STRING, .vstr ⟨content⟩, pos⟩, st)

/-- `nextToken()` (renderer 2153-2226).  The two-character operators are
checked first, then the single-character switch (so `.5` lexes as DOT
then NUMBER and `+3` as PLUS then NUMBER), then numbers (including a
leading minus directly followed by a digit), then identifiers; any other
character becomes an ERROR token. -/
def nextToken (st : LexState) : Token × LexState :=
  let st := skipWhitespace (st.input.length + 1) st
  match st.input with
  | [] => (⟨.EOF, .vnull, st.getPos⟩, st)
  | c :: rest =>
    let pos := st.getPos
    if c = '-' && rest.head? = some '-' then
      (⟨.LINE_TO, .vstr "--", pos⟩, lexAdvance (lexAdvance st))
    else if c = '.' && rest.head? = some '.' then
      (⟨.CURVE_TO, .vstr "..", pos⟩, lexAdvance (lexAdvance st))
    else if c = '\\' then readCommand st
    else if c = '(' then readCoordinate st
    else if c = '\x7b' then readBraceContent st
    else if c = '[' then (⟨.OPTION_START, .vstr "[", pos⟩, lexAdvance st)
    else if c = ']' then (⟨.OPTION_END, .vstr "]", pos⟩, lexAdvance st)
    else if c = ';' then (⟨.SEMICOLON, .vstr ";", pos⟩, lexAdvance st)
    else if c = ',' then (⟨.COMMA, .vstr ",", pos⟩, lexAdvance st)
    else if c = '=' then (⟨.EQUALS, .vstr "=", pos⟩, lexAdvance st)
    else if c = ':' then (⟨.COLON, .vstr ":", pos⟩, lexAdvance st)
    else if c = '+' then (⟨.PLUS, .vstr "+", pos⟩, lexAdvance st)
    else if c = '/' then (⟨.SLASH, .vstr "/", pos⟩, lexAdvance st)
    else if c = '.' then (⟨.DOT, .vstr ".", pos⟩, lexAdvance st)
    else if isAsciiDigit c || (c = '-' && (rest.head?.map isAsciiDigit).getD false) then
      readNumber st
    else if isAsciiAlpha c then readIdentifier st
    else (⟨.ERROR, .vstr ⟨[c]⟩, pos⟩, lexAdvance st)

/-- The `do { token = nextToken(); tokens.push(token) } while (token.type
!== EOF)` loop (renderer 2228-2238).  Every iteration that does not stop
consumes at least one character, so `|input| + 1` iterations always reach
the EOF token; the fuel-exhaustion arm, unreachable at that fuel, closes
the list with the EOF token a further iteration would push. -/
def tokenizeLoop : ℕ → LexState → List Token → List Token
  | 0, st, acc => (Token.mk .EOF .vnull st.getPos :: acc).reverse
  | fuel + 1, st, acc =>
    let (tok, st') := nextToken st
    if tok.type = .EOF then (tok :: acc).reverse
    else tokenizeLoop fuel st' (tok :: acc)

/-- `new Lexer(input).tokenize()` (renderer 1982-1988, 2228-2238). -/
def tokenize (source : String) : List Token :=
  tokenizeLoop (source.data.length + 1) ⟨source.data, 1, 1⟩ []


/-! ## The AST (parser 9-34)

The modelled fragment covers the commands and segment kinds the
verified claims exercise: `\draw`-family commands, `\coordinate`,
`\foreach`, line/circle/rectangle/cycle segments (and the `plot`
segment builder, which the real lexer leaves unreachable).  Curve
(`..`), `to`, ellipse, arc, grid and inline-node segments, and `\node`
commands, are outside the fragment.  AST nodes built by the fragment
omit the derived `style` field: the source stores
`style = parseOptions(options)` (styles.js, src/index.js 252) next to
the raw `options` list it is computed from, and no modelled claim reads
the style record. -/

inductive CmdKind where
  | DRAW | FILL | FILLDRAW | PATH
deriving DecidableEq

inductive Segment where
  /-- `LINE_SEGMENT`: from `--` (with options), from a bare coordinate
  (with node back-references, no options) or from a `+`/`++` coordinate
  (neither). -/
  | lineSeg (frm : Option (Point ℚ)) (toP : Point ℚ) (options : Option (List String))
      (edgeLabel : Option Unit) (fromNodeName toNodeName : Option String)
  /-- `CIRCLE` (parser 1270-1273); a `none` radius stands for `NaN`. -/
  | circleSeg (center : Option (Point ℚ)) (radius : Option ℚ)
  /-- `RECTANGLE` (parser 1320-1323). -/
  | rectSeg (frm : Option (Point ℚ)) (toP : Point ℚ)
  /-- `CYCLE`. -/
  | cycleSeg (frm : Option (Point ℚ))
  /-- `PLOT_SEGMENT` (parser 1450-1456); a `none` samples stands for `NaN`. -/
  | plotSeg (frm : Option (Point ℚ)) (points : List (Point ℚ)) (dmin dmax : ℚ)
      (samples : Option ℤ) (expression : String)
deriving DecidableEq

/-- `segment.to`, used by `parsePath` to advance the running point. -/
def Segment.toPoint : Segment → Option (Point ℚ)
  | .lineSeg _ t _ _ _ _ => some t
  | .rectSeg _ t => some t
  | _ => none

inductive Cmd where
  /-- A `\draw`/`\fill`/`\filldraw`/`\path` node (parser 352), without
  its derived `style` field (see the section comment above). -/
  | drawCmd (kind : CmdKind) (segments : List Segment) (options : List String)
  | coordCmd (name : Option String) (position : Point ℚ)
  | foreachResult (cmds : List Cmd)

structure PError where
  message : String
  position : SrcPos
deriving DecidableEq

/-- The mutable fields of a `Parser` instance (parser 36-46), with the
token list and cursor made explicit. -/
structure PState where
  tokens : List Token
  position : ℕ
  coordSystem : CoordinateSystem ℚ
  styles : List (String × List String)
  nodeDistance : ℚ
  currentDrawOptions : Option (List String)
  errors : List PError
deriving DecidableEq

def initPState (tokens : List Token) : PState :=
  { tokens, position := 0, coordSystem := .init, styles := [], nodeDistance := 1
    currentDrawOptions := none, errors := [] }

def peekT (st : PState) (offset : ℕ := 0) : Option Token :=
  st.tokens[st.position + offset]?

/-- `advance()`: returns the token at the cursor (possibly `undefined`)
and moves the cursor unconditionally. -/
def advanceT (st : PState) : Option Token × PState :=
  (st.tokens[st.position]?, { st with position := st.position + 1 })

def peekType (st : PState) : Option TokType := (peekT st).map Token.type

def matchT (t : TokType) (st : PState) : Option Token × PState :=
  if peekType st = some t then advanceT st else (none, st)

def pushError (st : PState) (message : String) (position : SrcPos) : PState :=
  { st with errors := st.errors ++ [⟨message, position⟩] }

/-- `expect(type)` (parser 57-67): the token on success, a recorded
error otherwise. -/
def expectT (t : TokType) (st : PState) : Option Token × PState :=
  match peekT st with
  | some tok =>
    if tok.type = t then advanceT st
    else
      (none, pushError st ("Expected " ++ tokTypeName t ++ " but got " ++ tokTypeName tok.type)
        tok.position)
  | none =>
    (none, pushError st ("Expected " ++ tokTypeName t ++ " but got EOF") ⟨0, 0⟩)

/-! ## Option blocks (parser 735-820) -/

def parseOptionKeyValue (opt : String) : String × Option String :=
  let trimmed := jsTrim opt
  match trimmed.data.findIdx? fun c => c = '=' with
  | some i => (jsTrim ⟨trimmed.data.take i⟩, some (jsTrim ⟨trimmed.data.drop (i + 1)⟩))
  | none => (trimmed, none)

def isWordToken : Option TokType → Bool
  | some t =>
    t = .IDENTIFIER || t = .NODE || t = .AT || t = .TO || t = .AND ||
    t = .CONTROLS || t = .CYCLE
  | none => false

/-- `expandStyleReferences` (parser 805-820).  The source has no cycle
guard and would recurse forever on a cyclic `.style`; the fuel only cuts
that unreachable-for-acyclic-tables case short. -/
def expandStyleReferences (styles : List (String × List String)) :
    ℕ → List String → List String
  | 0, options => options
  | fuel + 1, options =>
    options.flatMap fun opt =>
      if !opt.data.contains '=' then
        match styles.lookup opt with
        | some styleOptions => expandStyleReferences styles fuel styleOptions
        | none => [opt]
      else [opt]

/-- The token loop of `parseOptionsBlock` (parser 746-793). -/
def parseOptionsLoop : ℕ → PState → String → ℤ → Option TokType → List String →
    List String × PState
  | 0, st, current, _, _, options =>
    (options ++ (if (jsTrim current).data.isEmpty then [] else [jsTrim current]), st)
  | fuel + 1, st, current, depth, lastTokenType, options =>
    let stop := match peekT st with
      | some t => t.type == TokType.OPTION_END || t.type == TokType.EOF
      | none => true
    if stop then
      (options ++ (if (jsTrim current).data.isEmpty then [] else [jsTrim current]), st)
    else
      match advanceT st with
      | (none, st') => parseOptionsLoop fuel st' current depth lastTokenType options
      | (some token, st') =>
        let isUnit := token.type == TokType.IDENTIFIER &&
          (token.value == TokValue.vstr "mm" || token.value == TokValue.vstr "cm" ||
            token.value == TokValue.vstr "pt" || token.value == TokValue.vstr "em" ||
            token.value == TokValue.vstr "ex" || token.value == TokValue.vstr "in")
        let needsSpace :=
          (isWordToken lastTokenType && token.type == TokType.IDENTIFIER && !isUnit) ||
          (isWordToken lastTokenType && token.type == TokType.NUMBER) ||
          (lastTokenType == some TokType.IDENTIFIER && isWordToken (some token.type) &&
            token.type != TokType.IDENTIFIER)
        let current := if needsSpace then current ++ " " else current
        if token.type == TokType.BRACE_START then
          parseOptionsLoop fuel st' (current ++ "\x7b") (depth + 1) (some token.type) options
        else if token.type == TokType.BRACE_END then
          parseOptionsLoop fuel st' (current ++ "\x7d") (depth - 1) (some token.type) options
        else if token.type == TokType.COMMA && depth == 0 then
          parseOptionsLoop fuel st'
            "" 0 none (options ++ (if (jsTrim current).data.isEmpty then [] else [jsTrim current]))
        else if token.type == TokType.EQUALS then
          parseOptionsLoop fuel st' (current ++ "=") depth (some token.type) options
        else if token.type == TokType.STRING then
          parseOptionsLoop fuel st' (current ++ "\x7b" ++ token.value.jsString ++ "\x7d") depth
            (some token.type) options
        else if token.value == TokValue.vnull then
          parseOptionsLoop fuel st' current depth (some token.type) options
        else
          parseOptionsLoop fuel st' (current ++ token.value.jsString) depth
            (some token.type) options

/-- `parseOptionsBlock` (parser 735-803). -/
def parseOptionsBlock (fuel : ℕ) (st : PState) : List String × PState :=
  match matchT .OPTION_START st with
  | (none, st') => ([], st')
  | (some _, st') =>
    let (options, st'') := parseOptionsLoop fuel st' "" 0 none []
    let st3 := (matchT .OPTION_END st'').2
    (expandStyleReferences st3.styles fuel options, st3)

/-! ## Path segments (parser 822-1457) -/

def posOfPeek (st : PState) : SrcPos :=
  match peekT st with
  | some t => t.position
  | none => ⟨0, 0⟩

/-- `while (this.match(TokenType.PLUS)) coordValue += "+"`. -/
def collectPlus : ℕ → PState → String → String × PState
  | 0, st, acc => (acc, st)
  | fuel + 1, st, acc =>
    match matchT .PLUS st with
    | (some _, st') => collectPlus fuel st' (acc ++ "+")
    | (none, st') => (acc, st')

def isLowerAlpha (c : Char) : Bool := 'a' ≤ c && c ≤ 'z'

/-- `coordValue.match(/^(\\[a-z]+)\s*,\s*\{(.+)\}$/)` (parser 1426). -/
def matchPlotBraced (s : String) : Option (String × String) :=
  match s.data with
  | '\\' :: rest =>
    let w := rest.takeWhile isLowerAlpha
    if w.isEmpty then none
    else
      let r1 := (rest.drop w.length).dropWhile isJsSpace
      match r1 with
      | ',' :: r2 =>
        match r2.dropWhile isJsSpace with
        | '\x7b' :: m =>
          match m.reverse with
          | '\x7d' :: midRev =>
            if midRev.isEmpty then none
            else some (⟨'\\' :: w⟩, ⟨midRev.reverse⟩)
          | _ => none
        | _ => none
      | _ => none
  | _ => none

/-- `coordValue.match(/^(\\[a-z]+)\s*,\s*(.+)$/)` (parser 1432); an
all-whitespace tail (where the regex would backtrack into `\s*`) is
treated as no match, a case no concretely evaluated input reaches. -/
def matchPlotSimple (s : String) : Option (String × String) :=
  match s.data with
  | '\\' :: rest =>
    let w := rest.takeWhile isLowerAlpha
    if w.isEmpty then none
    else
      let r1 := (rest.drop w.length).dropWhile isJsSpace
      match r1 with
      | ',' :: r2 =>
        let expr := r2.dropWhile isJsSpace
        if expr.isEmpty then none else some (⟨'\\' :: w⟩, ⟨expr⟩)
      | _ => none
  | _ => none

/-- `Parser.parsePlot` (parser 1393-1457).  Unreachable from
`parsePathSegment` (the lexer produces no PLOT token), embedded for the
sampling behaviour it defines. -/
def parsePlot (M : MathModel ℚ) (fuel : ℕ) (st : PState) (fromPoint : Option (Point ℚ)) :
    Segment × PState :=
  let _ := fuel
  let st := (advanceT st).2
  let (dmin, dmax, samplesOpt) : ℚ × ℚ × Option ℤ :=
    match st.currentDrawOptions with
    | none => (0, 1, some 100)
    | some opts =>
      opts.foldl
        (fun acc opt =>
          let (key, value) := parseOptionKeyValue opt
          if key = "domain" then
            match value with
            | some v =>
              if v.data.isEmpty then acc
              else
                match matchColonPair v with
                | some (a, b) => (a, b, acc.2.2)
                | none => acc
            | none => acc
          else if key = "samples" then
            match value with
            | some v => if v.data.isEmpty then acc else (acc.1, acc.2.1, jsParseInt v)
            | none => acc
          else acc)
        (0, 1, some 100)
  let (xVar, expression, st) : String × String × PState :=
    if peekType st = some TokType.COORDINATE then
      let (tok, st') := advanceT st
      let coordValue := (tok.map fun t => t.value.jsString).getD ""
      match matchPlotBraced coordValue with
      | some (v, e) => (v, e, st')
      | none =>
        match matchPlotSimple coordValue with
        | some (v, e) => (v, e, st')
        | none => ("\\x", "0", st')
    else ("\\x", "0", st)
  let count : ℕ := match samplesOpt with | some n => n.toNat | none => 0
  let points := plotSamplePoints dmin dmax count fun x => evaluateExpression M expression xVar x
  (.plotSeg fromPoint points dmin dmax samplesOpt expression, st)

/-- `Parser.parseCircle` (parser 1248-1274). -/
def parseCircle (M : MathModel ℚ) (fuel : ℕ) (st : PState) (fromPoint : Option (Point ℚ)) :
    Segment × PState :=
  let _ := M
  let st := (advanceT st).2
  let (options, st) := parseOptionsBlock fuel st
  let radius0 : Option ℚ :=
    options.foldl
      (fun r opt =>
        let (key, value) := parseOptionKeyValue opt
        if key = "radius" then
          match value with
          | some v => jsParseFloat v
          | none => none
        else r)
      (some 1)
  if peekType st = some TokType.COORDINATE then
    let (tok, st') := advanceT st
    match jsParseFloat ((tok.map fun t => t.value.jsString).getD "") with
    | some parsed => (.circleSeg fromPoint (some parsed), st')
    | none => (.circleSeg fromPoint radius0, st')
  else (.circleSeg fromPoint radius0, st)

/-- `Parser.parseRectangle` (parser 1305-1324). -/
def parseRectangle (M : MathModel ℚ) (fuel : ℕ) (st : PState) (fromPoint : Option (Point ℚ)) :
    Option Segment × PState :=
  let st := (advanceT st).2
  let (pfx, st) := collectPlus fuel st ""
  match expectT .COORDINATE st with
  | (none, st') => (none, st')
  | (some tok, st') =>
    let coordValue := pfx ++ tok.value.jsString
    let (result, cs1) :=
      parseCoordinateToken M (coordValue.length + 1) st'.coordSystem coordValue
    (some (.rectSeg fromPoint result.point), { st' with coordSystem := cs1 })

/-- `Parser.parseEdgeLabel` (parser 1017-1051): the tokens are consumed
as in the source; the label record itself is opaque to every claim and
is reduced to `Unit`. -/
def parseEdgeLabel (fuel : ℕ) (st : PState) : PState :=
  let st := (advanceT st).2
  let (_, st) := parseOptionsBlock fuel st
  let st :=
    match peekT st with
    | some tok =>
      if tok.type == TokType.COORDINATE &&
          !(tok.value.jsString.data.contains ',') && !(tok.value.jsString.data.contains ':') then
        (advanceT st).2
      else st
    | none => st
  if peekType st = some TokType.STRING then (advanceT st).2 else st

/-- The endpoint adjustment shared by `parseLineTo` (986-999) and the
implicit-line case (927-940): trim endpoints that reference nodes to
the node boundary.  `fromPoint` is always present when `fromNodeName`
is (both come from the same coordinate token). -/
def adjustEndpoints (M : MathModel ℚ) (cs : CoordinateSystem ℚ)
    (fromPoint : Option (Point ℚ)) (fromNodeName : Option String)
    (toPoint : Point ℚ) (toNodeName : Option String) : Option (Point ℚ) × Point ℚ :=
  match fromNodeName, toNodeName with
  | some fn, some tn =>
    (some (getNodeBoundaryPoint M cs fn toPoint),
      match fromPoint with
      | some fp => getNodeBoundaryPoint M cs tn fp
      | none => toPoint)
  | some fn, none => (some (getNodeBoundaryPoint M cs fn toPoint), toPoint)
  | none, some tn =>
    (fromPoint,
      match fromPoint with
      | some fp => getNodeBoundaryPoint M cs tn fp
      | none => toPoint)
  | none, none => (fromPoint, toPoint)

/-- `Parser.parseLineTo` (parser 956-1012). -/
def parseLineTo (M : MathModel ℚ) (fuel : ℕ) (st : PState) (fromPoint : Option (Point ℚ))
    (fromNodeName : Option String) : (Option Segment × Option String) × PState :=
  let st := (advanceT st).2
  let (options, st) := parseOptionsBlock fuel st
  if peekType st = some TokType.CYCLE then
    ((some (.cycleSeg fromPoint), none), (advanceT st).2)
  else
    let (edgeLabel, st) : Option Unit × PState :=
      if peekType st = some TokType.NODE then (some (), parseEdgeLabel fuel st)
      else (none, st)
    let (pfx, st) := collectPlus fuel st ""
    match expectT .COORDINATE st with
    | (none, st') => ((none, none), st')
    | (some tok, st') =>
      let coordValue := pfx ++ tok.value.jsString
      let (result, cs1) :=
        parseCoordinateToken M (coordValue.length + 1) st'.coordSystem coordValue
      let st2 := { st' with coordSystem := cs1 }
      let (adjFrom, adjTo) :=
        adjustEndpoints M cs1 fromPoint fromNodeName result.point result.nodeName
      ((some (.lineSeg adjFrom adjTo (some options) edgeLabel fromNodeName result.nodeName),
          result.nodeName), st2)

/-- `Parser.parsePathSegment` (parser 865-954).  Curve (`..`), `to`,
ellipse, arc, grid and inline-node segments are outside the modelled
fragment and fall to the final no-segment case. -/
def parsePathSegment (M : MathModel ℚ) (fuel : ℕ) (st : PState) (fromPoint : Option (Point ℚ))
    (fromNodeName : Option String) : (Option Segment × Option String) × PState :=
  match peekT st with
  | none => ((none, none), st)
  | some token =>
    if token.type == TokType.LINE_TO then
      parseLineTo M fuel st fromPoint fromNodeName
    else if token.type == TokType.CIRCLE then
      let (seg, st') := parseCircle M fuel st fromPoint
      ((some seg, none), st')
    else if token.type == TokType.RECTANGLE then
      let (seg, st') := parseRectangle M fuel st fromPoint
      ((seg, none), st')
    -- the source's `case TokenType.PLOT` (parser 895-896) compares against
    -- `undefined` (the lexer's `TokenType` has no `PLOT`) and never matches
    else if token.type == TokType.CYCLE then
      ((some (.cycleSeg fromPoint), none), (advanceT st).2)
    else if token.type == TokType.PLUS then
      let st1 := (advanceT st).2
      let (isDouble, st2) :=
        match matchT .PLUS st1 with
        | (some _, s) => (true, s)
        | (none, s) => (false, s)
      if peekType st2 = some TokType.COORDINATE then
        let (tok, st3) := advanceT st2
        let coordValue := (if isDouble then "++" else "+") ++ (tok.map fun t => t.value.jsString).getD ""
        let (result, cs1) :=
          parseCoordinateToken M (coordValue.length + 1) st3.coordSystem coordValue
        ((some (.lineSeg fromPoint result.point none none none none), none),
          { st3 with coordSystem := cs1 })
      else ((none, none), st2)
    else if token.type == TokType.COORDINATE then
      let (tok, st1) := advanceT st
      let coordValue := (tok.map fun t => t.value.jsString).getD ""
      let (result, cs1) :=
        parseCoordinateToken M (coordValue.length + 1) st1.coordSystem coordValue
      let st2 := { st1 with coordSystem := cs1 }
      let (adjFrom, adjTo) :=
        adjustEndpoints M cs1 fromPoint fromNodeName result.point result.nodeName
      ((some (.lineSeg adjFrom adjTo none none fromNodeName result.nodeName),
          result.nodeName), st2)
    else ((none, none), st)

/-- The segment loop of `Parser.parsePath` (parser 837-851). -/
def parsePathLoop (M : MathModel ℚ) :
    ℕ → PState → Option (Point ℚ) → Option String → List Segment → List Segment × PState
  | 0, st, _, _, acc => (acc, st)
  | fuel + 1, st, fromPoint, fromNodeName, acc =>
    let stop := match peekT st with
      | some t => t.type == TokType.SEMICOLON || t.type == TokType.EOF
      | none => false
    if stop then (acc, st)
    else
      match parsePathSegment M fuel st fromPoint fromNodeName with
      | ((none, _), st') => (acc, st')
      | ((some seg, toNodeName), st') =>
        match seg.toPoint with
        | some p => parsePathLoop M fuel st' (some p) toNodeName (acc ++ [seg])
        | none => parsePathLoop M fuel st' fromPoint none (acc ++ [seg])

/-- `Parser.parsePath` (parser 822-854): reset the cursor, resolve the
leading coordinate, then parse segments until a terminator. -/
def parsePath (M : MathModel ℚ) (fuel : ℕ) (st : PState) : List Segment × PState :=
  let st := { st with coordSystem := st.coordSystem.reset }
  let (fromPoint, fromNodeName, st) : Option (Point ℚ) × Option String × PState :=
    if peekType st = some TokType.COORDINATE then
      let (tok, st1) := advanceT st
      let coordValue := (tok.map fun t => t.value.jsString).getD ""
      let (result, cs1) :=
        parseCoordinateToken M (coordValue.length + 1) st1.coordSystem coordValue
      (some result.point, result.nodeName, { st1 with coordSystem := cs1 })
    else (none, none, st)
  parsePathLoop M fuel st fromPoint fromNodeName []

/-- `Parser.parseDrawCommand` (parser 340-353). -/
def parseDrawCommand (M : MathModel ℚ) (fuel : ℕ) (kind : CmdKind) (st : PState) :
    Option Cmd × PState :=
  let st := (advanceT st).2
  let (options, st) := parseOptionsBlock fuel st
  let st := { st with currentDrawOptions := some options }
  let (segments, st) := parsePath M fuel st
  let st := { st with currentDrawOptions := none }
  let st := (matchT .SEMICOLON st).2
  (some (.drawCmd kind segments options), st)

/-- `Parser.parseCoordinateCommand` (parser 706-733). -/
def parseCoordinateCommand (M : MathModel ℚ) (st : PState) : Option Cmd × PState :=
  let st := (advanceT st).2
  let (name, st) : Option String × PState :=
    if peekType st = some TokType.COORDINATE then
      let (tok, st1) := advanceT st
      (tok.map fun t => t.value.jsString, st1)
    else (none, st)
  let (position, st) : Point ℚ × PState :=
    match matchT .AT st with
    | (some _, st1) =>
      match expectT .COORDINATE st1 with
      | (some tok, st2) =>
        let coordValue := tok.value.jsString
        let (result, cs1) :=
          parseCoordinateToken M (coordValue.length + 1) st2.coordSystem coordValue
        (result.point, { st2 with coordSystem := cs1 })
      | (none, st2) => (⟨0, 0⟩, st2)
    | (none, st1) => (⟨0, 0⟩, st1)
  let st := (matchT .SEMICOLON st).2
  let st :=
    match name with
    | some n => { st with coordSystem := st.coordSystem.setNamedCoordinate n position }
    | none => st
  (some (.coordCmd name position), st)

/-! ## `\foreach` (parser 173-265) -/

inductive FVal where
  | num (q : ℚ)
  | str (s : String)
  | tuple (parts : List String)

/-- The variable-name loop (parser 178-186). -/
def foreachVarsLoop : ℕ → PState → List String → List String × PState
  | 0, st, acc => (acc, st)
  | fuel + 1, st, acc =>
    if peekType st = some TokType.COMMAND then
      let (tok, st1) := advanceT st
      let acc := acc ++ [(tok.map fun t => t.value.jsString).getD ""]
      match matchT .SLASH st1 with
      | (some _, st2) => foreachVarsLoop fuel st2 acc
      | (none, st2) => (acc, st2)
    else (acc, st)

/-- The value-list analysis (parser 207-226): numbers where `parseFloat`
succeeds, raw strings otherwise, slash-split tuples for several
variables. -/
def parseForeachValues (varCount : ℕ) (valuesStr : String) : List FVal :=
  (splitOnChar ',' valuesStr).filterMap fun part =>
    let trimmed := jsTrim part
    if trimmed.data.isEmpty then none
    else if 1 < varCount then
      some (.tuple ((splitOnChar '/' trimmed).map jsTrim))
    else
      match jsParseFloat trimmed with
      | some q => some (.num q)
      | none => some (.str trimmed)

/-- Left-to-right, non-overlapping replacement of every occurrence of
`pat` (the behaviour of a `g`-flagged literal regex replace); the fuel
is the list length, which bounds the recursion. -/
def replaceAllAux (pat repl : List Char) : ℕ → List Char → List Char
  | 0, l => l
  | _ + 1, [] => []
  | fuel + 1, c :: rest =>
    if !pat.isEmpty && pat.isPrefixOf (c :: rest) then
      repl ++ replaceAllAux pat repl fuel ((c :: rest).drop pat.length)
    else c :: replaceAllAux pat repl fuel rest

def replaceAll (s pat repl : String) : String :=
  ⟨replaceAllAux pat.data repl.data s.data.length s.data⟩

/-- The textual substitution of one iteration (parser 237-249):
`String(value)` of a number is its decimal rendering. -/
def substituteVars (varNames : List String) (v : FVal) (body : String) : String :=
  match v with
  | .tuple parts =>
    (List.range (min varNames.length parts.length)).foldl
      (fun acc i => replaceAll acc varNames[i]! parts[i]!) body
  | .num q => replaceAll body varNames[0]! (decimalToString q)
  | .str s => replaceAll body varNames[0]! s

/-- `Parser.parseForeach` (parser 173-265), generic over the sub-parse
used for each substituted body.  Each iteration's child parser starts
from the shared coordinate system and style table as left by the
previous iteration and hands them back (the `subParser.coordSystem =
this.coordSystem` / `subParser.styles = this.styles` aliasing of the
source); the child's errors are left behind.  `nodeDistance` is copied
in but (being a number, not a reference) never copied back. -/
def parseForeach
    (subParse : String → CoordinateSystem ℚ → List (String × List String) → ℚ →
      Option (List Cmd × PState))
    (fuel : ℕ) (st : PState) : Option Cmd × PState :=
  let st := (advanceT st).2
  let (varNames, st) := foreachVarsLoop fuel st []
  if varNames.isEmpty then
    (none, pushError st "Expected variable name after \\foreach" (posOfPeek st))
  else
    let isIn := match peekT st with
      | some t => t.type == TokType.IDENTIFIER && t.value == TokValue.vstr "in"
      | none => false
    if !isIn then
      (none, pushError st "Expected 'in' after foreach variable" (posOfPeek st))
    else
      let st := (advanceT st).2
      let (values, st) : List FVal × PState :=
        if peekType st = some TokType.STRING then
          let (tok, st1) := advanceT st
          (parseForeachValues varNames.length ((tok.map fun t => t.value.jsString).getD ""), st1)
        else ([], st)
      let (bodyStr, st) : String × PState :=
        if peekType st = some TokType.STRING then
          let (tok, st1) := advanceT st
          ((tok.map fun t => t.value.jsString).getD "", st1)
        else ("", st)
      let folded :=
        values.foldl
          (fun (acc : List Cmd × CoordinateSystem ℚ × List (String × List String)) v =>
            let (cmdsAcc, cs, styles) := acc
            let substituted := substituteVars varNames v bodyStr
            match subParse substituted cs styles st.nodeDistance with
            | some (childCmds, childSt) =>
              (cmdsAcc ++ childCmds, childSt.coordSystem, childSt.styles)
            | none => (cmdsAcc, cs, styles))
          ([], st.coordSystem, st.styles)
      (some (.foreachResult folded.1),
        { st with coordSystem := folded.2.1, styles := folded.2.2 })

/-! ## The parse driver (parser 76-139) -/

def skipRecoverAux : ℕ → PState → PState
  | 0, st => st
  | n + 1, st =>
    match peekT st with
    | none => st
    | some t =>
      if t.type == TokType.SEMICOLON || t.type == TokType.EOF then st
      else skipRecoverAux n (advanceT st).2

/-- The catch-block recovery (parser 95-99): skip to the next statement
terminator or EOF, then consume a semicolon when that is what stopped
the scan. -/
def skipRecover (st : PState) : PState :=
  let st1 := skipRecoverAux (st.tokens.length - st.position) st
  (matchT .SEMICOLON st1).2

/-- The `parse()` loop (parser 76-104), generic over the per-command
parser so it serves both the abstract error-handling theorems and the
concrete fragment.  `.error` models a thrown exception carrying the
parser state at the throw; the catch block records the error and
resynchronises.  `none` = loop fuel exhausted. -/
def parseLoop (pc : PState → Except (PState × String) (Option Cmd × PState)) :
    ℕ → PState → List Cmd → Option (List Cmd × PState)
  | 0, _, _ => none
  | fuel + 1, st, acc =>
    let isEof := match peekT st with
      | some t => t.type == TokType.EOF
      | none => false
    if isEof then some (acc, st)
    else
      match pc st with
      | .ok (cmd?, st') =>
        let acc' := match cmd? with
          | some (.foreachResult cmds) => acc ++ cmds
          | some c => acc ++ [c]
          | none => acc
        parseLoop pc fuel st' acc'
      | .error (st', msg) =>
        let st'' := pushError st' msg (posOfPeek st')
        parseLoop pc fuel (skipRecover st'') acc

/-- `Parser.parseCommand` (parser 106-139) over the modelled fragment;
the depth fuel only bounds `\foreach` nesting.  `\node` commands and
`tikzpicture` option processing are outside the fragment and fall to
the skip branch. -/
def parseCommandK (M : MathModel ℚ) : ℕ → PState → Except (PState × String) (Option Cmd × PState)
  | 0, st => .ok (none, (advanceT st).2)
  | depth + 1, st =>
    let fuel := st.tokens.length + 2
    match peekT st with
    | none => .ok (none, (advanceT st).2)
    | some token =>
      if token.type != TokType.COMMAND then .ok (none, (advanceT st).2)
      else if token.value == TokValue.vstr "\\draw" then .ok (parseDrawCommand M fuel .DRAW st)
      else if token.value == TokValue.vstr "\\fill" then .ok (parseDrawCommand M fuel .FILL st)
      else if token.value == TokValue.vstr "\\filldraw" then .ok (parseDrawCommand M fuel .FILLDRAW st)
      else if token.value == TokValue.vstr "\\path" then .ok (parseDrawCommand M fuel .PATH st)
      else if token.value == TokValue.vstr "\\coordinate" then .ok (parseCoordinateCommand M st)
      else if token.value == TokValue.vstr "\\begin" then
        let st := (advanceT st).2
        match peekT st with
        | some t =>
          if t.type == TokType.STRING then
            let st := (advanceT st).2
            if t.value == TokValue.vstr "tikzpicture" then
              .ok (none, (parseOptionsBlock fuel st).2)
            else .ok (none, st)
          else .ok (none, st)
        | none => .ok (none, st)
      else if token.value == TokValue.vstr "\\end" then
        let st := (advanceT st).2
        let st := if peekType st = some TokType.STRING then (advanceT st).2 else st
        .ok (none, st)
      else if token.value == TokValue.vstr "\\foreach" then
        .ok (parseForeach
          (fun input cs styles nd =>
            let child := { initPState (tokenize input) with
                            coordSystem := cs, styles := styles, nodeDistance := nd }
            parseLoop (parseCommandK M depth) (child.tokens.length + 2) child [])
          fuel st)
      else .ok (none, (advanceT st).2)

/-- `parse(input)` (parser 1557-1560 and 76-104): tokenize, run the
command loop, return the document commands together with the final
parser state (which carries the collected errors and the coordinate
system). -/
def runParser (M : MathModel ℚ) (depth : ℕ) (input : String) : Option (List Cmd × PState) :=
  let st := initPState (tokenize input)
  parseLoop (parseCommandK M depth) (st.tokens.length + 2) st []

/-- All path segments of a command list, in document order. -/
def allSegments : List Cmd → List Segment
  | [] => []
  | .drawCmd _ segs _ :: rest => segs ++ allSegments rest
  | .coordCmd _ _ :: rest => allSegments rest
  | .foreachResult cmds :: rest => allSegments cmds ++ allSegments rest

/-! ## Tick generation (`Renderer.generateTicks`, src/src/renderer.js 496-515) -/

/-- `Number(value.toFixed(6))`: round to six decimal places.  `round`
rounds halves up where `toFixed` rounds them away from zero; the two
agree away from exact negative half-multiples of `10⁻⁶`, and no theorem
below depends on the convention. -/
def roundTo6 (v : ℚ) : ℚ := (round (v * 10 ^ 6) : ℚ) / 10 ^ 6

/-- The step selection of `generateTicks` (renderer 500-508):
`magnitude = 10^⌊log10 rawStep⌋` and the first of `1, 2, 5, 10` whose
multiple of the magnitude reaches `rawStep` (the initial value `1`
stands when none does). -/
def chooseTickStep (rawStep : ℚ) : ℚ :=
  let magnitude : ℚ := (10 : ℚ) ^ (Int.log 10 rawStep)
  let first := ([1, 2, 5, 10] : List ℚ).find? fun c => rawStep ≤ c * magnitude
  (first.getD 1) * magnitude

/-- The tick loop (renderer 510-513): `for (value = start;
value <= max + step * 0.5; value += step) push(roundTo6 value)`. -/
def ticksLoopQ (stopB step : ℚ) : ℕ → ℚ → List ℚ
  | 0, _ => []
  | fuel + 1, value =>
    if value ≤ stopB then roundTo6 value :: ticksLoopQ stopB step fuel (value + step)
    else []

/-- `Renderer.generateTicks` (renderer 496-515).  The loop fuel is one
more than the iteration count the loop bound admits, so it is never
exhausted. -/
def generateTicks (rmin rmax : ℚ) (desired : ℕ := 6) : List ℚ :=
  let span := rmax - rmin
  if span ≤ 0 then []
  else
    let rawStep := span / ((desired : ℚ) - 1)
    let step := chooseTickStep rawStep
    let start := ⌈rmin / step⌉ * step
    let stopB := rmax + step * (1 / 2)
    ticksLoopQ stopB step (⌈(stopB - start) / step⌉.toNat + 1) start


/-! ## Theorems: the coordinate-resolution claims -/

/-- Helper for the frame claims: with `updatePosition = false` no branch
of `parseCoordinate` writes to the coordinate system (every assignment
in the source is guarded by `updatePosition`), including the recursive
calc-expression resolutions, which always pass `false`. -/
theorem parseCoordinate_state_const {K : Type} [LinearOrderedField K] (M : MathModel K) :
    ∀ (fuel : ℕ) (cs : CoordinateSystem K) (s : String) (rel : Bool),
      (parseCoordinate M fuel cs s rel false).2 = cs := by
  intro fuel
  induction fuel with
  | zero => intro cs s rel; rfl
  | succ n ih =>
    intro cs s rel
    unfold parseCoordinate
    dsimp only
    repeat' split
    all_goals try rfl
    all_goals try simp_all
    all_goals
      first
      | (rcases ‹_ ∧ _› with ⟨hname, hmatch⟩
         (repeat' split at hmatch) <;>
           (try replace hmatch := Option.some.inj hmatch) <;>
           first
           | (simp_all; done)
           | exact (congrArg Prod.snd hmatch).symm
           | exact congrArg Prod.snd hmatch)
      | (rename_i heq _
         (repeat' split at heq) <;>
           (try replace heq := Option.some.inj heq) <;>
           first
           | (simp_all; done)
           | exact (congrArg Prod.snd heq).symm
           | exact congrArg Prod.snd heq
           | exact ((ih cs _).1.symm.trans (congrArg Prod.snd heq)).symm
           | exact (ih cs _).1.symm.trans (congrArg Prod.snd heq))
      | (rename_i heq
         (repeat' split at heq) <;>
           (try replace heq := Option.some.inj heq) <;>
           first
           | (simp_all; done)
           | exact (congrArg Prod.snd heq).symm
           | exact congrArg Prod.snd heq
           | exact ((ih cs _).1.symm.trans (congrArg Prod.snd heq)).symm
           | exact (ih cs _).1.symm.trans (congrArg Prod.snd heq))

/-- C8: for every coordinate literal and every coordinate-system state,
`parseCoordinate` with `updatePosition = false` leaves every field of
the coordinate system unchanged, and an immediate second call with the
same arguments returns the identical point (and again the unchanged
state). -/
theorem claim_C8_parseCoordinate_pure {K : Type} [LinearOrderedField K] (M : MathModel K)
    (fuel : ℕ) (cs : CoordinateSystem K) (s : String) (rel : Bool) :
    (parseCoordinate M fuel cs s rel false).2 = cs ∧
      parseCoordinate M fuel (parseCoordinate M fuel cs s rel false).2 s rel false
        = parseCoordinate M fuel cs s rel false := by
  refine ⟨parseCoordinate_state_const M fuel cs s rel, ?_⟩
  rw [parseCoordinate_state_const M fuel cs s rel]

/-- An arbitrary concrete `MathModel` over `ℚ` used to instantiate
witnesses; none of the concretely evaluated inputs reaches any of its
components. -/
def zeroMathModel : MathModel ℚ :=
  ⟨fun _ => none, fun _ _ _ => .thrown, fun _ => 0, fun _ => 0, fun _ => 0, fun _ _ => 0, 0⟩

set_option maxHeartbeats 1000000 in
/-- C9: a coordinate string matching none of the grammar alternatives
(no calc expression, no polar pair, no 2- or 3-part tuple with valid
numeric components, no known node anchor, no known bare name) resolves
to the current position and leaves the state unchanged, even when
`updatePosition` is true; `parseCoordinate` has no error output at all,
so nothing is recorded. -/
theorem claim_C9_unresolvable_fallback {K : Type} [LinearOrderedField K] (M : MathModel K)
    (fuel : ℕ) (cs : CoordinateSystem K) (s : String) (rel upd : Bool)
    (h1 : splitCalcParts (jsTrim s) = none)
    (h2 : matchColonPair (jsTrim s) = none)
    (h3 : (((splitOnChar ',' (jsTrim s)).map jsTrim).filter fun p => !p.data.isEmpty).length = 3 →
      ¬((parseNumericExpression M (((splitOnChar ',' (jsTrim s)).map jsTrim).filter fun p => !p.data.isEmpty)[0]!).isSome = true ∧
        (parseNumericExpression M (((splitOnChar ',' (jsTrim s)).map jsTrim).filter fun p => !p.data.isEmpty)[1]!).isSome = true ∧
        (parseNumericExpression M (((splitOnChar ',' (jsTrim s)).map jsTrim).filter fun p => !p.data.isEmpty)[2]!).isSome = true))
    (h4 : (((splitOnChar ',' (jsTrim s)).map jsTrim).filter fun p => !p.data.isEmpty).length = 2 →
      ¬((parseNumericExpression M (((splitOnChar ',' (jsTrim s)).map jsTrim).filter fun p => !p.data.isEmpty)[0]!).isSome = true ∧
        (parseNumericExpression M (((splitOnChar ',' (jsTrim s)).map jsTrim).filter fun p => !p.data.isEmpty)[1]!).isSome = true))
    (h5 : ∀ nd an, matchAnchorRef (jsTrim s) = some (nd, an) → List.lookup nd cs.nodes = none)
    (h6 : matchName (jsTrim s) = true →
      List.lookup (jsTrim s) cs.nodes = none ∧ List.lookup (jsTrim s) cs.namedCoordinates = none) :
    parseCoordinate M fuel cs s rel upd = (cs.currentPosition, cs) := by
  cases fuel with
  | zero => rfl
  | succ n =>
    unfold parseCoordinate
    dsimp only
    simp only [h1, h2]
    by_cases hl3 :
        (((splitOnChar ',' (jsTrim s)).map jsTrim).filter fun p => !p.data.isEmpty).length = 3
    · rw [if_pos hl3]
      rcases hx : parseNumericExpression M
          (((splitOnChar ',' (jsTrim s)).map jsTrim).filter fun p => !p.data.isEmpty)[0]! with _ | x
      · simp [hx]
      rcases hy : parseNumericExpression M
          (((splitOnChar ',' (jsTrim s)).map jsTrim).filter fun p => !p.data.isEmpty)[1]! with _ | y
      · simp [hx, hy]
      rcases hz : parseNumericExpression M
          (((splitOnChar ',' (jsTrim s)).map jsTrim).filter fun p => !p.data.isEmpty)[2]! with _ | z
      · simp [hx, hy, hz]
      · exact absurd ⟨by simp [hx], by simp [hy], by simp [hz]⟩ (h3 hl3)
    · rw [if_neg hl3]
      by_cases hl2 :
          (((splitOnChar ',' (jsTrim s)).map jsTrim).filter fun p => !p.data.isEmpty).length = 2
      · rw [if_pos hl2]
        rcases hx : parseNumericExpression M
            (((splitOnChar ',' (jsTrim s)).map jsTrim).filter fun p => !p.data.isEmpty)[0]! with _ | x
        · simp [hx]
        rcases hy : parseNumericExpression M
            (((splitOnChar ',' (jsTrim s)).map jsTrim).filter fun p => !p.data.isEmpty)[1]! with _ | y
        · simp [hx, hy]
        · exact absurd ⟨by simp [hx], by simp [hy]⟩ (h4 hl2)
      · rw [if_neg hl2]
        rcases ha : matchAnchorRef (jsTrim s) with _ | ⟨nd, an⟩
        · by_cases hm : matchName (jsTrim s) = true
          · obtain ⟨k1, k2⟩ := h6 hm
            simp [ha, hm, k1, k2]
          · simp [ha, Bool.of_not_eq_true hm]
        · have hnone := h5 nd an ha
          by_cases hm : matchName (jsTrim s) = true
          · obtain ⟨k1, k2⟩ := h6 hm
            simp [ha, hnone, hm, k1, k2]
          · simp [ha, hnone, Bool.of_not_eq_true hm]

/-- Witness for C9 at the concrete unresolvable literal `"@@"`. -/
theorem claim_C9_witness :
    parseCoordinate zeroMathModel 5 CoordinateSystem.init "@@" false true
      = ((CoordinateSystem.init : CoordinateSystem ℚ).currentPosition, CoordinateSystem.init) :=
  claim_C9_unresolvable_fallback zeroMathModel 5 CoordinateSystem.init "@@" false true
    (by decide) (by decide) (by decide) (by decide)
    (fun nd an h => Option.noConfusion h) (fun h => Bool.noConfusion h)


/-- A `++`-prefixed token value is relative and updates the position. -/
theorem coordPrefix_plusPlus (inner : String) :
    coordPrefix ("++" ++ inner) = (true, true, inner) := by
  have hdata2 : ("++" ++ inner).data = '+' :: '+' :: inner.data := by
    rw [String.data_append]; rfl
  have hmk : (⟨inner.data⟩ : String) = inner := rfl
  unfold coordPrefix
  rw [hdata2]
  split
  · rename_i r heq
    simp only [List.cons.injEq] at heq
    rw [Prod.mk.injEq, Prod.mk.injEq]
    exact ⟨rfl, rfl, by rw [← heq.2.2]⟩
  · rename_i hno heq
    exfalso
    simp only [List.cons.injEq] at heq
    exact hno inner.data heq.2.symm
  · rename_i hno1 hno2
    exfalso
    exact hno1 inner.data rfl

/-- A `+`-prefixed token value (single plus) is relative and does not
update the position. -/
theorem coordPrefix_plus (inner : String) (hhead : inner.data.head? ≠ some '+') :
    coordPrefix ("+" ++ inner) = (true, false, inner) := by
  have hdata1 : ("+" ++ inner).data = '+' :: inner.data := by
    rw [String.data_append]; rfl
  unfold coordPrefix
  rw [hdata1]
  split
  · rename_i r heq
    exfalso
    simp only [List.cons.injEq] at heq
    exact hhead (by rw [heq.2]; rfl)
  · rename_i hno heq
    simp only [List.cons.injEq] at heq
    rw [Prod.mk.injEq, Prod.mk.injEq]
    exact ⟨rfl, rfl, by rw [← heq.2]⟩
  · rename_i hno1 hno2
    exfalso
    exact hno2 inner.data rfl


set_option maxHeartbeats 1000000 in
/-- C1 (amended): provided the axis and global scales are `1` and the 2D
cursor agrees with the projection of the 3D cursor, resolving
`++(dx,dy)` through `parseCoordinateToken` returns `P + (dx,dy)` for
the prior position `P` and advances the cursor to that point, while
`+(dx,dy)` returns the same point and leaves the coordinate system
(cursor included) entirely unchanged.  The restriction is forced by the
source: the relative offset is added to the *3D* cursor and then
projected (coordinates.js 256-272), so a state whose 2D cursor is out
of step with its 3D cursor — reachable through a `node.anchor`
resolution, which updates only the 2D cursor — violates the original
claim (see the counterexample). -/
theorem claim_C1_relative_coordinates {K : Type} [LinearOrderedField K] (M : MathModel K)
    (cs : CoordinateSystem K) (inner px py : String) (dx dy : K) (fuel : ℕ)
    (hsx : cs.axisScale.x = 1) (hsy : cs.axisScale.y = 1) (hg : cs.globalScale = 1)
    (hsync : cs.currentPosition =
      cs.project3D cs.currentPosition3D.x cs.currentPosition3D.y cs.currentPosition3D.z)
    (hhead : inner.data.head? ≠ some '+')
    (hcalc : splitCalcParts (jsTrim (stripParens inner)) = none)
    (hpolar : matchColonPair (jsTrim (stripParens inner)) = none)
    (hparts : ((splitOnChar ',' (jsTrim (stripParens inner))).map jsTrim).filter
        (fun p => !p.data.isEmpty) = [px, py])
    (hx : parseNumericExpression M px = some dx)
    (hy : parseNumericExpression M py = some dy) :
    (parseCoordinateToken M (fuel + 1) cs ("++" ++ inner)).1.point
        = ⟨cs.currentPosition.x + dx, cs.currentPosition.y + dy⟩ ∧
      (parseCoordinateToken M (fuel + 1) cs ("++" ++ inner)).2.currentPosition
        = ⟨cs.currentPosition.x + dx, cs.currentPosition.y + dy⟩ ∧
      (parseCoordinateToken M (fuel + 1) cs ("+" ++ inner)).1.point
        = ⟨cs.currentPosition.x + dx, cs.currentPosition.y + dy⟩ ∧
      (parseCoordinateToken M (fuel + 1) cs ("+" ++ inner)).2 = cs := by
  have hdata2 : ("++" ++ inner).data = '+' :: '+' :: inner.data := by
    rw [String.data_append]; rfl
  have hdata1 : ("+" ++ inner).data = '+' :: inner.data := by
    rw [String.data_append]; rfl
  have hcore : ∀ upd : Bool,
      parseCoordinate M (fuel + 1) cs (stripParens inner) true upd =
        (⟨cs.currentPosition.x + dx, cs.currentPosition.y + dy⟩,
          if upd then
            { cs with
                currentPosition := ⟨cs.currentPosition.x + dx, cs.currentPosition.y + dy⟩
                currentPosition3D :=
                  ⟨cs.currentPosition3D.x + dx, cs.currentPosition3D.y + dy,
                    cs.currentPosition3D.z⟩ }
          else cs) := by
    intro upd
    unfold parseCoordinate
    dsimp only
    simp only [hcalc, hpolar, hparts]
    norm_num
    simp only [hx, hy]
    have hproj : ∀ a b : K,
        cs.project3D (cs.currentPosition3D.x + a) (cs.currentPosition3D.y + b)
            cs.currentPosition3D.z
          = ⟨cs.currentPosition.x + a, cs.currentPosition.y + b⟩ := by
      intro a b
      rw [hsync]
      simp only [CoordinateSystem.project3D, hsx, hsy, hg, Point.mk.injEq]
      constructor <;> ring
    cases upd <;> simp [hproj]
  refine ⟨?_, ?_, ?_, ?_⟩
  · unfold parseCoordinateToken
    rw [coordPrefix_plusPlus]
    dsimp only
    rw [hcore true]
  · unfold parseCoordinateToken
    rw [coordPrefix_plusPlus]
    dsimp only
    rw [hcore true]
    rfl
  · unfold parseCoordinateToken
    rw [coordPrefix_plus inner hhead]
    dsimp only
    rw [hcore false]
  · unfold parseCoordinateToken
    rw [coordPrefix_plus inner hhead]
    dsimp only
    rw [hcore false]
    rfl


/-- The synchronised state used by the C1 witness. -/
def c1SyncState : CoordinateSystem ℚ :=
  { CoordinateSystem.init with currentPosition := ⟨2, 3⟩, currentPosition3D := ⟨2, 3, 0⟩ }

/-- Witness for C1 at `++(1,2)` / `+(1,2)` from position `(2,3)`. -/
theorem claim_C1_witness :
    (parseCoordinateToken zeroMathModel (0 + 1) c1SyncState ("++" ++ "(1,2)")).1.point
        = ⟨c1SyncState.currentPosition.x + 1, c1SyncState.currentPosition.y + 2⟩ ∧
      (parseCoordinateToken zeroMathModel (0 + 1) c1SyncState ("++" ++ "(1,2)")).2.currentPosition
        = ⟨c1SyncState.currentPosition.x + 1, c1SyncState.currentPosition.y + 2⟩ ∧
      (parseCoordinateToken zeroMathModel (0 + 1) c1SyncState ("+" ++ "(1,2)")).1.point
        = ⟨c1SyncState.currentPosition.x + 1, c1SyncState.currentPosition.y + 2⟩ ∧
      (parseCoordinateToken zeroMathModel (0 + 1) c1SyncState ("+" ++ "(1,2)")).2 = c1SyncState :=
  claim_C1_relative_coordinates zeroMathModel c1SyncState "(1,2)" "1" "2" 1 2 0
    (by with_unfolding_all decide) (by with_unfolding_all decide) (by with_unfolding_all decide)
    (by with_unfolding_all decide) (by with_unfolding_all decide) (by with_unfolding_all decide)
    (by with_unfolding_all decide) (by with_unfolding_all decide) (by with_unfolding_all decide)
    (by with_unfolding_all decide)

/-- A state whose 2D cursor is out of step with its 3D cursor, as the
anchor branch of `parseCoordinate` produces. -/
def c1DesyncState : CoordinateSystem ℚ :=
  { CoordinateSystem.init with currentPosition := ⟨5, 5⟩ }

/-- Counterexample to C1 as stated: from a prior 2D position `P = (5,5)`
(with the 3D cursor still at the origin), `++(1,0)` resolves to `(1,0)`,
not `P + (1,0) = (6,5)`. -/
theorem claim_C1_counterexample :
    ¬((parseCoordinateToken zeroMathModel 8 c1DesyncState "++(1,0)").1.point
        = ⟨c1DesyncState.currentPosition.x + 1, c1DesyncState.currentPosition.y + 0⟩) := by
  with_unfolding_all decide

/-! ## C2: parse() error recovery -/

/-- The invariant every fragment parser preserves over an EOF-terminated
token list: the tokens are untouched, the cursor never moves backwards, and
it never passes the final EOF token. -/
def Bnd (T : List Token) (st st' : PState) : Prop :=
  st'.tokens = T ∧ st.position ≤ st'.position ∧ st'.position + 1 ≤ T.length

theorem Bnd.trans {T : List Token} {s1 s2 s3 : PState}
    (h1 : Bnd T s1 s2) (h2 : Bnd T s2 s3) : Bnd T s1 s3 :=
  ⟨h2.1, le_trans h1.2.1 h2.2.1, h2.2.2⟩

set_option maxRecDepth 8000 in
/-- C7: parsing `\foreach \x in {0,1,2} { \draw (\x,0) circle (0.2); }`
yields exactly three CIRCLE segments centered at (0,0), (1,0) and (2,0),
each of radius 0.2 — one per textual substitution of the loop variable into
the re-parsed body; the child parser shares the parent's coordinate system,
so the cursor ends at (2,0), and (second input) a coordinate `p0` registered
in iteration 1 resolves in iteration 2 (both line segments start at the
shared registered point (0,3)).  The fast numeric path never consults the
evaluator, so this holds for every math model. -/
theorem claim_C7_foreach_expansion (M : MathModel ℚ) :
    (runParser M 3
        "\\foreach \\x in \x7b0,1,2\x7d \x7b \\draw (\\x,0) circle (0.2); \x7d").map
        (fun r => allSegments r.1)
      = some [.circleSeg (some ⟨0, 0⟩) (some (1/5)), .circleSeg (some ⟨1, 0⟩) (some (1/5)),
          .circleSeg (some ⟨2, 0⟩) (some (1/5))] ∧
    (runParser M 3
        "\\foreach \\x in \x7b0,1,2\x7d \x7b \\draw (\\x,0) circle (0.2); \x7d").map
        (fun r => r.2.coordSystem.currentPosition)
      = some ⟨2, 0⟩ ∧
    (runParser M 3
        "\\foreach \\i in \x7b0,1\x7d \x7b \\coordinate (p\\i) at (\\i,3); \\draw (p0) -- (\\i,1); \x7d").map
        (fun r => allSegments r.1)
      = some [.lineSeg (some ⟨0, 3⟩) ⟨0, 1⟩ (some []) none none none,
          .lineSeg (some ⟨0, 3⟩) ⟨1, 1⟩ (some []) none none none] := by
  refine ⟨?_, ?_, ?_⟩ <;> with_unfolding_all rfl

set_option maxRecDepth 8000 in
/-- C10: a syntax error inside a `\foreach` body is dropped by the parent
parse.  The input whose only statement is an erroneous `\draw (0,0)
rectangle;` inside a foreach body parses with an empty error list (while
still contributing its one recovered command), whereas parsing the
substituted body text directly records the error "Expected COORDINATE but
got SEMICOLON" at the semicolon's 1-based source position (line 1, column
23) — `parseForeach` copies only the child's commands, never the child's
errors. -/
theorem claim_C10_foreach_errors_dropped (M : MathModel ℚ) :
    (runParser M 3 "\\foreach \\x in \x7b0\x7d \x7b \\draw (0,0) rectangle; \x7d").map
        (fun r => (r.1.length, r.2.errors)) = some (1, []) ∧
    (runParser M 3 " \\draw (0,0) rectangle; ").map (fun r => r.2.errors)
      = some [⟨"Expected COORDINATE but got SEMICOLON", ⟨1, 23⟩⟩] := by
  refine ⟨?_, ?_⟩ <;> with_unfolding_all rfl

/-! ## C4: circle-node boundary points -/

/-- C4: for a registered circle-shaped node and a target distinct from the
node's center, `getNodeBoundaryPoint` returns a point at squared distance
exactly r² from the center, where r = max(width/2, height/2) is the node's
radius, and the offset from the center is a positive multiple of the
direction towards the target (colinearity).  `s` abstracts the JS
`Math.sqrt` of the squared distance (positive, with s·s the squared
distance). -/
theorem claim_C4_circle_boundary {K : Type} [LinearOrderedField K]
    (M : MathModel K) (cs : CoordinateSystem K)
    (name : String) (node : NodeData K) (target : Point K) (r s : K)
    (hlook : cs.nodes.lookup name = some node)
    (hshape : node.shape = "circle")
    (hne : ¬(target.x - node.center.x = 0 ∧ target.y - node.center.y = 0))
    (hr : r = max (node.width / 2) (node.height / 2))
    (hrpos : 0 < r)
    (hs : s = M.sqrt ((target.x - node.center.x) * (target.x - node.center.x) +
      (target.y - node.center.y) * (target.y - node.center.y)))
    (hspos : 0 < s)
    (hsq : s * s = (target.x - node.center.x) * (target.x - node.center.x) +
      (target.y - node.center.y) * (target.y - node.center.y)) :
    ((getNodeBoundaryPoint M cs name target).x - node.center.x) ^ 2 +
      ((getNodeBoundaryPoint M cs name target).y - node.center.y) ^ 2 = r ^ 2 ∧
    ∃ c : K, 0 < c ∧
      (getNodeBoundaryPoint M cs name target).x - node.center.x =
        c * (target.x - node.center.x) ∧
      (getNodeBoundaryPoint M cs name target).y - node.center.y =
        c * (target.y - node.center.y) := by
  have hgb : getNodeBoundaryPoint M cs name target =
      ⟨node.center.x + (target.x - node.center.x) * (r / s),
       node.center.y + (target.y - node.center.y) * (r / s)⟩ := by
    unfold getNodeBoundaryPoint
    rw [hlook]
    dsimp only
    rw [if_neg hne, if_pos hshape, ← hr, ← hs]
  rw [hgb]
  dsimp only
  have hs0 : s ≠ 0 := ne_of_gt hspos
  refine ⟨?_, r / s, div_pos hrpos hspos, by ring, by ring⟩
  calc (node.center.x + (target.x - node.center.x) * (r / s) - node.center.x) ^ 2 +
        (node.center.y + (target.y - node.center.y) * (r / s) - node.center.y) ^ 2
      = ((target.x - node.center.x) * (target.x - node.center.x) +
          (target.y - node.center.y) * (target.y - node.center.y)) * (r / s) ^ 2 := by
        ring
    _ = (s * s) * (r / s) ^ 2 := by rw [hsq]
    _ = r ^ 2 := by field_simp; ring

def c4Model : MathModel ℚ :=
  { zeroMathModel with sqrt := fun v => if v = 25 then 5 else 0 }

def c4CS : CoordinateSystem ℚ :=
  { CoordinateSystem.init with nodes := [("n", ⟨⟨0, 0⟩, [], "circle", 3, 1⟩)] }

/-- The C4 theorem applied to a concrete model: a circle node of width 3 and
height 1 at the origin, target (3,4); the boundary point is at distance 3/2
(= max(3/2, 1/2)) from the center along the direction (3,4). -/
theorem claim_C4_witness :
    ((getNodeBoundaryPoint c4Model c4CS "n" ⟨3, 4⟩).x - (0 : ℚ)) ^ 2 +
      ((getNodeBoundaryPoint c4Model c4CS "n" ⟨3, 4⟩).y - 0) ^ 2 = (3 / 2 : ℚ) ^ 2 ∧
    ∃ c : ℚ, 0 < c ∧
      (getNodeBoundaryPoint c4Model c4CS "n" ⟨3, 4⟩).x - 0 = c * (3 - 0) ∧
      (getNodeBoundaryPoint c4Model c4CS "n" ⟨3, 4⟩).y - 0 = c * (4 - 0) :=
  claim_C4_circle_boundary c4Model c4CS "n" ⟨⟨0, 0⟩, [], "circle", 3, 1⟩ ⟨3, 4⟩ (3 / 2) 5
    (by with_unfolding_all decide) rfl
    (by with_unfolding_all decide) (by with_unfolding_all decide)
    (by with_unfolding_all decide) (by with_unfolding_all decide)
    (by with_unfolding_all decide) (by with_unfolding_all decide)


theorem plotSamplePoints_length {K : Type} [LinearOrderedField K] (dmin dmax : K) (n : ℕ)
    (f : K → K) : (plotSamplePoints dmin dmax n f).length = n := by
  unfold plotSamplePoints
  dsimp only
  rw [List.length_map, List.length_range]

theorem plotSamplePoints_get {K : Type} [LinearOrderedField K] (dmin dmax : K) (n : ℕ)
    (f : K → K) (i : ℕ) (p : Point K)
    (hp : (plotSamplePoints dmin dmax n f)[i]? = some p) :
    p = ⟨dmin + (i : K) * ((dmax - dmin) / ((n : K) - 1)),
      f (dmin + (i : K) * ((dmax - dmin) / ((n : K) - 1)))⟩ := by
  simp only [plotSamplePoints, List.getElem?_map] at hp
  by_cases hi : i < n
  · rw [List.getElem?_range hi, Option.map_some'] at hp
    exact (Option.some.inj hp).symm
  · rw [List.getElem?_eq_none (by rw [List.length_range]; omega)] at hp
    exact absurd hp (by simp)

/-! ## C5: plot sampling -/

/-- C5: `parsePlot`'s sampling loop with `samples = n ≥ 2` points and domain
min < max produces exactly n points whose x-values are evenly spaced
(`x_i = min + i·step` with `step = (max-min)/(n-1)`), strictly increasing,
starting at the domain minimum and ending exactly at the domain maximum; and
whenever the expression evaluator throws or returns a non-finite value at a
sample, that sample's y-value is 0 (`evaluateExpression`'s catch / isFinite
guard). -/
theorem claim_C5_plot_sampling {K : Type} [LinearOrderedField K]
    (M : MathModel K) (expression varName : String)
    (dmin dmax step : K) (n : ℕ)
    (hn : 2 ≤ n) (hd : dmin < dmax)
    (hstep : step = (dmax - dmin) / ((n : K) - 1)) :
    (plotSamplePoints dmin dmax n (evaluateExpression M expression varName)).length = n ∧
    (∀ (i : ℕ) (p : Point K), (plotSamplePoints dmin dmax n (evaluateExpression M expression varName))[i]? =
        some p → p.x = dmin + (i : K) * step) ∧
    (∀ (i : ℕ) (p q : Point K), (plotSamplePoints dmin dmax n (evaluateExpression M expression varName))[i]? =
        some p →
      (plotSamplePoints dmin dmax n (evaluateExpression M expression varName))[i + 1]? =
        some q → p.x < q.x) ∧
    ((plotSamplePoints dmin dmax n (evaluateExpression M expression varName)).head?.map
        Point.x = some dmin) ∧
    ((plotSamplePoints dmin dmax n (evaluateExpression M expression varName)).getLast?.map
        Point.x = some dmax) ∧
    (∀ (i : ℕ) (p : Point K), (plotSamplePoints dmin dmax n (evaluateExpression M expression varName))[i]? =
        some p →
      (M.plotEval expression varName p.x = .thrown ∨
        M.plotEval expression varName p.x = .nonfinite) → p.y = 0) := by
  have hn1 : (1 : K) < (n : K) := by
    have : ((2 : ℕ) : K) ≤ (n : K) := by exact_mod_cast Nat.cast_le.mpr hn
    push_cast at this
    linarith
  have hden : (0 : K) < (n : K) - 1 := by linarith
  have hpos : 0 < step := by
    rw [hstep]
    exact div_pos (sub_pos.2 hd) hden
  have hlen : (plotSamplePoints dmin dmax n (evaluateExpression M expression varName)).length
      = n := plotSamplePoints_length dmin dmax n _
  have hget : ∀ (i : ℕ) (p : Point K),
      (plotSamplePoints dmin dmax n (evaluateExpression M expression varName))[i]? = some p →
      p = ⟨dmin + (i : K) * step, evaluateExpression M expression varName
        (dmin + (i : K) * step)⟩ := by
    intro i p hp
    rw [hstep]
    exact plotSamplePoints_get dmin dmax n _ i p hp
  refine ⟨hlen, ?_, ?_, ?_, ?_, ?_⟩
  · intro i p hp
    rw [hget i p hp]
  · intro i p q hp hq
    rw [hget i p hp, hget (i + 1) q hq]
    dsimp only
    push_cast
    nlinarith [hpos]
  · have h0 : (plotSamplePoints dmin dmax n (evaluateExpression M expression varName)).head?
        = (plotSamplePoints dmin dmax n (evaluateExpression M expression varName))[0]? := by
      rcases hl : plotSamplePoints dmin dmax n (evaluateExpression M expression varName) with
        _ | ⟨a, l⟩
      · rfl
      · simp
    rw [h0]
    rcases hv : (plotSamplePoints dmin dmax n (evaluateExpression M expression varName))[0]? with
      _ | p
    · exfalso
      have := List.getElem?_eq_none_iff.mp hv
      omega
    · rw [hget 0 p hv]
      simp
  · have hlast : (plotSamplePoints dmin dmax n
        (evaluateExpression M expression varName)).getLast?
        = (plotSamplePoints dmin dmax n (evaluateExpression M expression varName))[n - 1]? := by
      rw [List.getLast?_eq_getElem?, hlen]
    rw [hlast]
    rcases hv : (plotSamplePoints dmin dmax n
        (evaluateExpression M expression varName))[n - 1]? with _ | p
    · exfalso
      have := List.getElem?_eq_none_iff.mp hv
      omega
    · rw [hget (n - 1) p hv, Option.map_some']
      refine congrArg some ?_
      dsimp only
      have hcast : ((n - 1 : ℕ) : K) = (n : K) - 1 := by
        have h1 : (1 : ℕ) ≤ n := by omega
        push_cast [h1]
        ring
      rw [hstep, hcast]
      field_simp
  · intro i p hp hfail
    rw [hget i p hp] at hfail ⊢
    dsimp only at hfail ⊢
    unfold evaluateExpression
    rcases hfail with h | h <;> rw [h]

def c5Pts : List (Point ℚ) :=
  plotSamplePoints 0 1 3 (evaluateExpression zeroMathModel "x" "x")

/-- The C5 theorem at a concrete instance: 3 samples over [0,1] with the
always-throwing evaluator; x-values 0, 1/2, 1 and all y-values 0. -/
theorem claim_C5_witness :
    c5Pts.length = 3 ∧
    (∀ (i : ℕ) (p : Point ℚ), c5Pts[i]? = some p → p.x = 0 + (i : ℚ) * (1 / 2)) ∧
    (∀ (i : ℕ) (p q : Point ℚ), c5Pts[i]? = some p → c5Pts[i + 1]? = some q → p.x < q.x) ∧
    (c5Pts.head?.map Point.x = some 0) ∧
    (c5Pts.getLast?.map Point.x = some 1) ∧
    (∀ (i : ℕ) (p : Point ℚ), c5Pts[i]? = some p →
      (zeroMathModel.plotEval "x" "x" p.x = .thrown ∨
        zeroMathModel.plotEval "x" "x" p.x = .nonfinite) → p.y = 0) := by
  have h := claim_C5_plot_sampling zeroMathModel "x" "x" 0 1 (1 / 2) 3
    (by decide) (by norm_num) (by norm_num)
  exact h

/-! ## C6: tick generation -/

/-- `toFixed(6)` rounding is monotone. -/
theorem roundTo6_mono {a b : ℚ} (h : a ≤ b) : roundTo6 a ≤ roundTo6 b := by
  unfold roundTo6
  have hr : round (a * 10 ^ 6) ≤ round (b * 10 ^ 6) := by
    rw [round_eq, round_eq]
    exact Int.floor_mono (by nlinarith)
  apply div_le_div_of_nonneg_right ?_ ?_
  · exact_mod_cast hr
  · norm_num

/-- `toFixed(6)` rounding moves a value by at most half of `10⁻⁶`. -/
theorem roundTo6_close (v : ℚ) : |roundTo6 v - v| ≤ 1 / (2 * 10 ^ 6) := by
  unfold roundTo6
  have h := abs_sub_round (v * 10 ^ 6)
  rw [abs_sub_comm] at h
  have heq : (round (v * 10 ^ 6) : ℚ) / 10 ^ 6 - v =
      ((round (v * 10 ^ 6) : ℚ) - v * 10 ^ 6) / 10 ^ 6 := by
    field_simp
    ring
  rw [heq, abs_div, abs_of_pos (by norm_num : (0 : ℚ) < 10 ^ 6)]
  calc |(round (v * 10 ^ 6) : ℚ) - v * 10 ^ 6| / 10 ^ 6
      ≤ (1 / 2) / 10 ^ 6 := by
        apply div_le_div_of_nonneg_right h ?_
        norm_num
    _ = 1 / (2 * 10 ^ 6) := by norm_num

/-- Every emitted tick is the rounding of a loop value between the start
value and the loop bound. -/
theorem ticksLoopQ_mem {stopB step : ℚ} (hstep : 0 ≤ step) :
    ∀ (fuel : ℕ) (v t : ℚ), t ∈ ticksLoopQ stopB step fuel v →
      ∃ w, v ≤ w ∧ w ≤ stopB ∧ t = roundTo6 w := by
  intro fuel
  induction fuel with
  | zero => intro v t ht; exact absurd ht (by simp [ticksLoopQ])
  | succ f ih =>
    intro v t ht
    unfold ticksLoopQ at ht
    by_cases hv : v ≤ stopB
    · rw [if_pos hv] at ht
      rcases List.mem_cons.mp ht with h | h
      · exact ⟨v, le_refl v, hv, h⟩
      · obtain ⟨w, hw1, hw2, hw3⟩ := ih (v + step) t h
        exact ⟨w, by linarith, hw2, hw3⟩
    · rw [if_neg hv] at ht
      exact absurd ht (by simp)

/-- The tick loop emits a non-decreasing list (the loop value increases and
rounding is monotone). -/
theorem ticksLoopQ_chain {stopB step : ℚ} (hstep : 0 ≤ step) :
    ∀ (fuel : ℕ) (v : ℚ), List.Chain' (· ≤ ·) (ticksLoopQ stopB step fuel v) := by
  intro fuel
  induction fuel with
  | zero => intro v; simp [ticksLoopQ]
  | succ f ih =>
    intro v
    unfold ticksLoopQ
    by_cases hv : v ≤ stopB
    · rw [if_pos hv]
      apply List.chain'_cons'.mpr
      refine ⟨?_, ih (v + step)⟩
      intro y hy
      obtain ⟨w, hw1, hw2, hw3⟩ :=
        ticksLoopQ_mem hstep f (v + step) y (List.mem_of_mem_head? hy)
      rw [hw3]
      exact roundTo6_mono (by linarith)
    · rw [if_neg hv]
      simp

/-- The chosen step is always 1, 2, 5 or 10 times the magnitude
`10^⌊log10 rawStep⌋`. -/
theorem chooseTickStep_cases (r : ℚ) :
    ∃ c : ℚ, (c = 1 ∨ c = 2 ∨ c = 5 ∨ c = 10) ∧
      chooseTickStep r = c * (10 : ℚ) ^ Int.log 10 r := by
  unfold chooseTickStep
  dsimp only
  rcases hf : ([1, 2, 5, 10] : List ℚ).find? (fun c => r ≤ c * (10 : ℚ) ^ Int.log 10 r)
    with _ | c
  · exact ⟨1, Or.inl rfl, rfl⟩
  · have hmem := List.mem_of_find?_eq_some hf
    simp only [List.mem_cons, List.mem_singleton] at hmem
    refine ⟨c, ?_, rfl⟩
    rcases hmem with h | h | h | h
    · exact Or.inl h
    · exact Or.inr (Or.inl h)
    · exact Or.inr (Or.inr (Or.inl h))
    · rcases h with h | h
      · exact Or.inr (Or.inr (Or.inr h))
      · exact absurd h (by simp)

theorem chooseTickStep_pos (r : ℚ) : 0 < chooseTickStep r := by
  obtain ⟨c, hc, he⟩ := chooseTickStep_cases r
  rw [he]
  have hm : (0 : ℚ) < (10 : ℚ) ^ Int.log 10 r := zpow_pos (by norm_num) _
  rcases hc with h | h | h | h <;> rw [h] <;> linarith

/-- C6 (amended): for any range and `desired ≥ 2` tick count, a non-positive
span yields `[]`; for a positive span the chosen step is 1, 2, 5 or 10 times
the power of ten `10^⌊log10 rawStep⌋`, and the tick list is non-decreasing
with every tick within the rounded window
`[min − ½·10⁻⁶, max + step/2 + ½·10⁻⁶]`.  The spec's tighter window
`[min, max + step/2]` and strict monotonicity fail: `toFixed(6)` rounding can
move a tick below the range minimum, above `max + step/2`, and can collapse
neighbouring ticks (see the counterexample). -/
theorem claim_C6_generate_ticks (rmin rmax : ℚ) (desired : ℕ) (hdes : 2 ≤ desired) :
    (rmax - rmin ≤ 0 → generateTicks rmin rmax desired = []) ∧
    (0 < rmax - rmin →
      (∃ c : ℚ, (c = 1 ∨ c = 2 ∨ c = 5 ∨ c = 10) ∧
        chooseTickStep ((rmax - rmin) / ((desired : ℚ) - 1)) =
          c * (10 : ℚ) ^ Int.log 10 ((rmax - rmin) / ((desired : ℚ) - 1))) ∧
      List.Chain' (· ≤ ·) (generateTicks rmin rmax desired) ∧
      (∀ t ∈ generateTicks rmin rmax desired,
        rmin - 1 / (2 * 10 ^ 6) ≤ t ∧
        t ≤ rmax + chooseTickStep ((rmax - rmin) / ((desired : ℚ) - 1)) / 2
          + 1 / (2 * 10 ^ 6))) := by
  constructor
  · intro hspan
    unfold generateTicks
    rw [if_pos hspan]
  · intro hspan
    have hstep := chooseTickStep_pos ((rmax - rmin) / ((desired : ℚ) - 1))
    have hunf : generateTicks rmin rmax desired =
        ticksLoopQ (rmax + chooseTickStep ((rmax - rmin) / ((desired : ℚ) - 1)) * (1 / 2))
          (chooseTickStep ((rmax - rmin) / ((desired : ℚ) - 1)))
          ((⌈(rmax + chooseTickStep ((rmax - rmin) / ((desired : ℚ) - 1)) * (1 / 2)
              - ⌈rmin / chooseTickStep ((rmax - rmin) / ((desired : ℚ) - 1))⌉
                * chooseTickStep ((rmax - rmin) / ((desired : ℚ) - 1))) /
              chooseTickStep ((rmax - rmin) / ((desired : ℚ) - 1))⌉.toNat) + 1)
          (⌈rmin / chooseTickStep ((rmax - rmin) / ((desired : ℚ) - 1))⌉
            * chooseTickStep ((rmax - rmin) / ((desired : ℚ) - 1))) := by
      unfold generateTicks
      rw [if_neg (by linarith)]
    refine ⟨chooseTickStep_cases _, ?_, ?_⟩
    · rw [hunf]
      exact ticksLoopQ_chain (le_of_lt hstep) _ _
    · intro t ht
      rw [hunf] at ht
      obtain ⟨w, hw1, hw2, hw3⟩ := ticksLoopQ_mem (le_of_lt hstep) _ _ t ht
      have hclose := roundTo6_close w
      rw [abs_le] at hclose
      have hstart : rmin ≤ ⌈rmin / chooseTickStep ((rmax - rmin) / ((desired : ℚ) - 1))⌉
          * chooseTickStep ((rmax - rmin) / ((desired : ℚ) - 1)) := by
        rw [← div_le_iff hstep ]
        exact Int.le_ceil _
      constructor
      · rw [hw3]; linarith
      · rw [hw3]; linarith

/-- The amended C6 theorem at the spec's own example range [0, 97] with 6
desired ticks. -/
theorem claim_C6_witness :
    ((97 : ℚ) - 0 ≤ 0 → generateTicks 0 97 6 = []) ∧
    (0 < (97 : ℚ) - 0 →
      (∃ c : ℚ, (c = 1 ∨ c = 2 ∨ c = 5 ∨ c = 10) ∧
        chooseTickStep (((97 : ℚ) - 0) / (((6 : ℕ) : ℚ) - 1)) =
          c * (10 : ℚ) ^ Int.log 10 (((97 : ℚ) - 0) / (((6 : ℕ) : ℚ) - 1))) ∧
      List.Chain' (· ≤ ·) (generateTicks 0 97 6) ∧
      (∀ t ∈ generateTicks 0 97 6,
        (0 : ℚ) - 1 / (2 * 10 ^ 6) ≤ t ∧
        t ≤ 97 + chooseTickStep (((97 : ℚ) - 0) / (((6 : ℕ) : ℚ) - 1)) / 2
          + 1 / (2 * 10 ^ 6))) :=
  claim_C6_generate_ticks 0 97 6 (by decide)

/-- `⌊log10 1.32e-7⌋ = -7`, the magnitude exponent of the counterexample
range's raw step. -/
theorem c6_log : Int.log 10 (33 / 250000000 : ℚ) = -7 := by
  have hb : (1 : ℕ) < 10 := by norm_num
  have hr : (0 : ℚ) < 33 / 250000000 := by norm_num
  have h1 : ((10 : ℚ) ^ (-7 : ℤ)) ≤ 33 / 250000000 := by
    rw [zpow_neg]
    rw [show ((7 : ℤ)) = ((7 : ℕ) : ℤ) from rfl, zpow_natCast]
    norm_num
  have h2 : (33 / 250000000 : ℚ) < (10 : ℚ) ^ (-6 : ℤ) := by
    rw [zpow_neg]
    rw [show ((6 : ℤ)) = ((6 : ℕ) : ℤ) from rfl, zpow_natCast]
    norm_num
  have hA : (-7 : ℤ) ≤ Int.log 10 (33 / 250000000 : ℚ) :=
    (Int.zpow_le_iff_le_log hb hr).mp h1
  have hB : Int.log 10 (33 / 250000000 : ℚ) < -6 :=
    (Int.lt_zpow_iff_log_lt hb hr).mp h2
  omega

/-- The counterexample range [1.4e-7, 8e-7] selects step `2e-7`. -/
theorem c6_step : chooseTickStep ((8 / 10000000 - 14 / 100000000 : ℚ) / (((6 : ℕ) : ℚ) - 1))
    = 2 / 10000000 := by
  have hr : ((8 / 10000000 - 14 / 100000000 : ℚ) / (((6 : ℕ) : ℚ) - 1)) = 33 / 250000000 := by
    norm_num
  rw [hr]
  unfold chooseTickStep
  dsimp only
  rw [c6_log]
  have hp : (10 : ℚ) ^ (-7 : ℤ) = 1 / 10000000 := by
    rw [zpow_neg]
    rw [show ((7 : ℤ)) = ((7 : ℕ) : ℤ) from rfl, zpow_natCast]
    norm_num
  rw [hp]
  norm_num [List.find?]

/-- One iteration of the tick loop while the bound admits the value. -/
theorem ticksLoopQ_step (stopB step v : ℚ) (f : ℕ) (h : v ≤ stopB) :
    ticksLoopQ stopB step (f + 1) v = roundTo6 v :: ticksLoopQ stopB step f (v + step) := by
  conv_lhs => rw [ticksLoopQ]
  rw [if_pos h]

/-- The tick loop stops once the value exceeds the bound. -/
theorem ticksLoopQ_stop (stopB step v : ℚ) (f : ℕ) (h : ¬v ≤ stopB) :
    ticksLoopQ stopB step (f + 1) v = [] := by
  conv_lhs => rw [ticksLoopQ]
  rw [if_neg h]

/-- The exact ticks of the counterexample range: `toFixed(6)` rounding
collapses them to 0 and 10⁻⁶. -/
theorem c6_ticks : generateTicks (14 / 100000000 : ℚ) (8 / 10000000) 6
    = [0, 0, 1 / 1000000, 1 / 1000000] := by
  have hr1 : roundTo6 (1 / 5000000 : ℚ) = 0 := by
    unfold roundTo6
    rw [round_eq, show ⌊(1 / 5000000 : ℚ) * 10 ^ 6 + 1 / 2⌋ = 0 from by
      rw [Int.floor_eq_iff] <;> norm_num]
    norm_num
  have hr2 : roundTo6 (1 / 2500000 : ℚ) = 0 := by
    unfold roundTo6
    rw [round_eq, show ⌊(1 / 2500000 : ℚ) * 10 ^ 6 + 1 / 2⌋ = 0 from by
      rw [Int.floor_eq_iff] <;> norm_num]
    norm_num
  have hr3 : roundTo6 (3 / 5000000 : ℚ) = 1 / 1000000 := by
    unfold roundTo6
    rw [round_eq, show ⌊(3 / 5000000 : ℚ) * 10 ^ 6 + 1 / 2⌋ = 1 from by
      rw [Int.floor_eq_iff] <;> norm_num]
    norm_num
  have hr4 : roundTo6 (1 / 1250000 : ℚ) = 1 / 1000000 := by
    unfold roundTo6
    rw [round_eq, show ⌊(1 / 1250000 : ℚ) * 10 ^ 6 + 1 / 2⌋ = 1 from by
      rw [Int.floor_eq_iff] <;> norm_num]
    norm_num
  unfold generateTicks
  rw [if_neg (by norm_num)]
  dsimp only
  rw [c6_step]
  norm_num only
  rw [show ⌈(7 / 10 : ℚ)⌉ = (1 : ℤ) from by rw [Int.ceil_eq_iff] <;> norm_num]
  norm_num only
  rw [show ⌈(7 / 2 : ℚ)⌉ = (4 : ℤ) from by rw [Int.ceil_eq_iff] <;> norm_num]
  rw [show ((4 : ℤ).toNat + 1) = 5 from rfl]
  rw [show (5 : ℕ) = 4 + 1 from rfl, ticksLoopQ_step _ _ _ _ (by norm_num)]
  rw [show (1 / 5000000 + 1 / 5000000 : ℚ) = 1 / 2500000 from by norm_num]
  rw [show (4 : ℕ) = 3 + 1 from rfl, ticksLoopQ_step _ _ _ _ (by norm_num)]
  rw [show (1 / 2500000 + 1 / 5000000 : ℚ) = 3 / 5000000 from by norm_num]
  rw [show (3 : ℕ) = 2 + 1 from rfl, ticksLoopQ_step _ _ _ _ (by norm_num)]
  rw [show (3 / 5000000 + 1 / 5000000 : ℚ) = 1 / 1250000 from by norm_num]
  rw [show (2 : ℕ) = 1 + 1 from rfl, ticksLoopQ_step _ _ _ _ (by norm_num)]
  rw [show (1 / 1250000 + 1 / 5000000 : ℚ) = 1 / 1000000 from by norm_num]
  rw [show (1 : ℕ) = 0 + 1 from rfl, ticksLoopQ_stop _ _ _ _ (by norm_num)]
  rw [hr1, hr2, hr3, hr4]

/-- Counterexample to C6 as stated: for the range [1.4e-7, 8e-7] the ticks
are [0, 0, 1e-6, 1e-6] with step 2e-7; the first tick 0 lies below
range.min = 1.4e-7 (and the last lies above max + step/2 = 9e-7), so not
every tick is within [range.min, range.max + step/2]. -/
theorem claim_C6_counterexample :
    generateTicks (14 / 100000000 : ℚ) (8 / 10000000) 6 = [0, 0, 1 / 1000000, 1 / 1000000] ∧
    chooseTickStep ((8 / 10000000 - 14 / 100000000 : ℚ) / (((6 : ℕ) : ℚ) - 1)) = 2 / 10000000 ∧
    ¬(∀ t ∈ generateTicks (14 / 100000000 : ℚ) (8 / 10000000) 6,
        (14 / 100000000 : ℚ) ≤ t ∧ t ≤ 8 / 10000000 + (2 / 10000000 : ℚ) / 2) := by
  refine ⟨c6_ticks, c6_step, ?_⟩
  intro h
  have h0 := (h 0 (by rw [c6_ticks]; simp)).1
  norm_num at h0

/-! ## C3: rectangle-node boundary points -/

/-- `o` is exactly the minimum of the accepted candidates `S`: if `o = some t`
then `t` is accepted and below every accepted value; if `o = none` nothing is
accepted.  This is the invariant of the `t = Math.min(t, cand)` accumulation
in `getNodeBoundaryPoint`. -/
def MinSpecO {K : Type} [LinearOrderedField K] (o : Option K) (S : K → Prop) : Prop :=
  (∀ t, o = some t → S t ∧ ∀ u, S u → t ≤ u) ∧ (o = none → ∀ u, ¬S u)

/-- The accumulator starts as `Infinity` with nothing accepted. -/
theorem minSpecO_none {K : Type} [LinearOrderedField K] :
    MinSpecO (none : Option K) (fun _ => False) :=
  ⟨fun t ht => Option.noConfusion ht, fun _ u h => h⟩

/-- One guarded `Math.min` step preserves the minimum invariant, extending
the accepted set by the new candidate when its guard holds. -/
theorem minSpecO_step {K : Type} [LinearOrderedField K] {o : Option K} {S : K → Prop}
    (g : Prop) [Decidable g] (c : K) (h : MinSpecO o S) :
    MinSpecO (if g then jsMinInto o c else o) (fun u => S u ∨ (g ∧ u = c)) := by
  by_cases hg : g
  · rw [if_pos hg]
    rcases ho : o with _ | v
    · constructor
      · intro t ht
        simp only [jsMinInto, Option.some.injEq] at ht
        subst ht
        refine ⟨Or.inr ⟨hg, rfl⟩, ?_⟩
        intro u hu
        rcases hu with hu | ⟨_, he⟩
        · exact absurd hu (h.2 ho u)
        · rw [he]
      · intro hn
        exact absurd hn (by simp [jsMinInto])
    · obtain ⟨hv1, hv2⟩ := h.1 v ho
      constructor
      · intro t ht
        simp only [jsMinInto, Option.some.injEq] at ht
        subst ht
        constructor
        · rcases le_total v c with hvc | hcv
          · rw [min_eq_left hvc]
            exact Or.inl hv1
          · rw [min_eq_right hcv]
            exact Or.inr ⟨hg, rfl⟩
        · intro u hu
          rcases hu with hu | ⟨_, he⟩
          · exact le_trans (min_le_left v c) (hv2 u hu)
          · rw [he]
            exact min_le_right v c
      · intro hn
        exact absurd hn (by simp [jsMinInto])
  · rw [if_neg hg]
    constructor
    · intro t ht
      obtain ⟨h1, h2⟩ := h.1 t ht
      refine ⟨Or.inl h1, ?_⟩
      intro u hu
      rcases hu with hu | ⟨hgu, _⟩
      · exact h2 u hu
      · exact absurd hgu hg
    · intro hn u hu
      rcases hu with hu | ⟨hgu, _⟩
      · exact h.2 hn u hu
      · exact hg hgu

/-- The invariant transports along an equivalence of accepted sets. -/
theorem minSpecO_congr {K : Type} [LinearOrderedField K] {o : Option K} {S S' : K → Prop}
    (h : MinSpecO o S) (he : ∀ u, S u ↔ S' u) : MinSpecO o S' := by
  constructor
  · intro t ht
    obtain ⟨h1, h2⟩ := h.1 t ht
    exact ⟨(he t).mp h1, fun u hu => h2 u ((he u).mpr hu)⟩
  · intro hn u hu
    exact h.2 hn u ((he u).mpr hu)

/-- If anything is accepted, the accumulator holds the least accepted
value. -/
theorem minSpecO_conclude {K : Type} [LinearOrderedField K] {o : Option K} {S : K → Prop}
    (h : MinSpecO o S) {u0 : K} (hu : S u0) :
    ∃ t, o = some t ∧ S t ∧ ∀ u, S u → t ≤ u := by
  rcases ho : o with _ | t
  · exact absurd hu (h.2 ho u0)
  · obtain ⟨h1, h2⟩ := h.1 t ho
    exact ⟨t, rfl, h1, h2⟩

/-- The candidate scan of `getNodeBoundaryPoint`'s rectangle branch: for a
direction `(nx, ny)` pointing strictly outside the `2A × 2B` box (scaled by
`s > 0`), the scan returns `some t` where `t` is the least positive ray
parameter whose crossing point lies on an edge within the perpendicular
half-extent. -/
theorem rectMinCandidate {K : Type} [LinearOrderedField K] (s nx ny A B : K)
    (hA : 0 < A) (hB : 0 < B) (hspos : 0 < s)
    (hout : A < s * |nx| ∨ B < s * |ny|) :
    ∃ t : K,
      (let t0 : Option K := none
       let t1 := if nx ≠ 0 then
           let tRight := A / nx
           let ta := if 0 < tRight ∧ |ny * tRight| ≤ B then jsMinInto t0 tRight else t0
           let tLeft := -A / nx
           if 0 < tLeft ∧ |ny * tLeft| ≤ B then jsMinInto ta tLeft else ta
         else t0
       let t2 := if ny ≠ 0 then
           let tTop := B / ny
           let tb := if 0 < tTop ∧ |nx * tTop| ≤ A then jsMinInto t1 tTop else t1
           let tBottom := -B / ny
           if 0 < tBottom ∧ |nx * tBottom| ≤ A then jsMinInto tb tBottom else tb
         else t1
       t2) = some t ∧
      0 < t ∧
      ((|nx * t| = A ∧ |ny * t| ≤ B) ∨ (|ny * t| = B ∧ |nx * t| ≤ A)) ∧
      ∀ t' : K, 0 < t' →
        ((|nx * t'| = A ∧ |ny * t'| ≤ B) ∨ (|ny * t'| = B ∧ |nx * t'| ≤ A)) → t ≤ t' := by
  dsimp only
  have hex : ∃ u0 : K, 0 < u0 ∧
      ((|nx * u0| = A ∧ |ny * u0| ≤ B) ∨ (|ny * u0| = B ∧ |nx * u0| ≤ A)) := by
    rcases le_or_lt (A * |ny|) (B * |nx|) with hcase | hcase
    · have hdx : A < s * |nx| := by
        rcases hout with h | h
        · exact h
        · nlinarith [abs_nonneg nx, abs_nonneg ny]
      have hnx0 : 0 < |nx| := by nlinarith [abs_nonneg nx]
      refine ⟨A / |nx|, div_pos hA hnx0, Or.inl ⟨?_, ?_⟩⟩
      · rw [abs_mul, abs_of_pos (div_pos hA hnx0), ← mul_div_assoc]
        rw [div_eq_iff (ne_of_gt hnx0)]
        ring
      · rw [abs_mul, abs_of_pos (div_pos hA hnx0), ← mul_div_assoc]
        rw [div_le_iff hnx0]
        linarith
    · have hdy : B < s * |ny| := by
        rcases hout with h | h
        · nlinarith [abs_nonneg nx, abs_nonneg ny]
        · exact h
      have hny0 : 0 < |ny| := by nlinarith [abs_nonneg ny]
      refine ⟨B / |ny|, div_pos hB hny0, Or.inr ⟨?_, ?_⟩⟩
      · rw [abs_mul, abs_of_pos (div_pos hB hny0), ← mul_div_assoc]
        rw [div_eq_iff (ne_of_gt hny0)]
        ring
      · rw [abs_mul, abs_of_pos (div_pos hB hny0), ← mul_div_assoc]
        rw [div_le_iff hny0]
        linarith
  obtain ⟨u0, hu0⟩ := hex
  by_cases hnx : nx ≠ 0
  · rw [if_pos hnx]
    have hnxA : nx * (A / nx) = A := by field_simp <;> ring
    have hnxA2 : nx * (-A / nx) = -A := by field_simp <;> ring
    by_cases hny : ny ≠ 0
    · rw [if_pos hny]
      have hnyB : ny * (B / ny) = B := by field_simp <;> ring
      have hnyB2 : ny * (-B / ny) = -B := by field_simp <;> ring
      have h1 := minSpecO_step (0 < A / nx ∧ |ny * (A / nx)| ≤ B) (A / nx)
        (minSpecO_none (K := K))
      have h2 := minSpecO_step (0 < -A / nx ∧ |ny * (-A / nx)| ≤ B) (-A / nx) h1
      have h3 := minSpecO_step (0 < B / ny ∧ |nx * (B / ny)| ≤ A) (B / ny) h2
      have h4 := minSpecO_step (0 < -B / ny ∧ |nx * (-B / ny)| ≤ A) (-B / ny) h3
      have hiff : ∀ u : K,
          ((((False ∨ (0 < A / nx ∧ |ny * (A / nx)| ≤ B) ∧ u = A / nx) ∨
              (0 < -A / nx ∧ |ny * (-A / nx)| ≤ B) ∧ u = -A / nx) ∨
            (0 < B / ny ∧ |nx * (B / ny)| ≤ A) ∧ u = B / ny) ∨
            (0 < -B / ny ∧ |nx * (-B / ny)| ≤ A) ∧ u = -B / ny) ↔
          (0 < u ∧ ((|nx * u| = A ∧ |ny * u| ≤ B) ∨ (|ny * u| = B ∧ |nx * u| ≤ A))) := by
        intro u
        constructor
        · intro h
          rcases h with (((h | ⟨⟨hg1, hg2⟩, he⟩) | ⟨⟨hg1, hg2⟩, he⟩) | ⟨⟨hg1, hg2⟩, he⟩) |
            ⟨⟨hg1, hg2⟩, he⟩
          · exact absurd h (by simp)
          · subst he
            exact ⟨hg1, Or.inl ⟨by rw [hnxA, abs_of_pos hA], hg2⟩⟩
          · subst he
            exact ⟨hg1, Or.inl ⟨by rw [hnxA2, abs_neg, abs_of_pos hA], hg2⟩⟩
          · subst he
            exact ⟨hg1, Or.inr ⟨by rw [hnyB, abs_of_pos hB], hg2⟩⟩
          · subst he
            exact ⟨hg1, Or.inr ⟨by rw [hnyB2, abs_neg, abs_of_pos hB], hg2⟩⟩
        · rintro ⟨hu, hE | hE⟩
          · rcases (abs_eq hA.le).mp hE.1 with h | h
            · have hu' : u = A / nx := by rw [eq_div_iff hnx, mul_comm]; exact h
              exact Or.inl (Or.inl (Or.inl (Or.inr ⟨⟨hu' ▸ hu, hu' ▸ hE.2⟩, hu'⟩)))
            · have hu' : u = -A / nx := by rw [eq_div_iff hnx, mul_comm]; exact h
              exact Or.inl (Or.inl (Or.inr ⟨⟨hu' ▸ hu, hu' ▸ hE.2⟩, hu'⟩))
          · rcases (abs_eq hB.le).mp hE.1 with h | h
            · have hu' : u = B / ny := by rw [eq_div_iff hny, mul_comm]; exact h
              exact Or.inl (Or.inr ⟨⟨hu' ▸ hu, hu' ▸ hE.2⟩, hu'⟩)
            · have hu' : u = -B / ny := by rw [eq_div_iff hny, mul_comm]; exact h
              exact Or.inr ⟨⟨hu' ▸ hu, hu' ▸ hE.2⟩, hu'⟩
      have hspec := minSpecO_congr h4 hiff
      obtain ⟨t, hto, ⟨ht0, htedge⟩, htmin⟩ := minSpecO_conclude hspec hu0
      exact ⟨t, hto, ht0, htedge, fun u h1 h2 => htmin u ⟨h1, h2⟩⟩
    · rw [if_neg hny]
      have hny0 : ny = 0 := not_not.mp hny
      have h1 := minSpecO_step (0 < A / nx ∧ |ny * (A / nx)| ≤ B) (A / nx)
        (minSpecO_none (K := K))
      have h2 := minSpecO_step (0 < -A / nx ∧ |ny * (-A / nx)| ≤ B) (-A / nx) h1
      have hiff : ∀ u : K,
          ((False ∨ (0 < A / nx ∧ |ny * (A / nx)| ≤ B) ∧ u = A / nx) ∨
            (0 < -A / nx ∧ |ny * (-A / nx)| ≤ B) ∧ u = -A / nx) ↔
          (0 < u ∧ ((|nx * u| = A ∧ |ny * u| ≤ B) ∨ (|ny * u| = B ∧ |nx * u| ≤ A))) := by
        intro u
        constructor
        · intro h
          rcases h with (h | ⟨⟨hg1, hg2⟩, he⟩) | ⟨⟨hg1, hg2⟩, he⟩
          · exact absurd h (by simp)
          · subst he
            exact ⟨hg1, Or.inl ⟨by rw [hnxA, abs_of_pos hA], hg2⟩⟩
          · subst he
            exact ⟨hg1, Or.inl ⟨by rw [hnxA2, abs_neg, abs_of_pos hA], hg2⟩⟩
        · rintro ⟨hu, hE | hE⟩
          · rcases (abs_eq hA.le).mp hE.1 with h | h
            · have hu' : u = A / nx := by rw [eq_div_iff hnx, mul_comm]; exact h
              exact Or.inl (Or.inr ⟨⟨hu' ▸ hu, hu' ▸ hE.2⟩, hu'⟩)
            · have hu' : u = -A / nx := by rw [eq_div_iff hnx, mul_comm]; exact h
              exact Or.inr ⟨⟨hu' ▸ hu, hu' ▸ hE.2⟩, hu'⟩
          · exfalso
            have := hE.1
            rw [hny0, zero_mul, abs_zero] at this
            exact (ne_of_gt hB) this.symm
      have hspec := minSpecO_congr h2 hiff
      obtain ⟨t, hto, ⟨ht0, htedge⟩, htmin⟩ := minSpecO_conclude hspec hu0
      exact ⟨t, hto, ht0, htedge, fun u h1 h2 => htmin u ⟨h1, h2⟩⟩
  · rw [if_neg hnx]
    have hnx0 : nx = 0 := not_not.mp hnx
    by_cases hny : ny ≠ 0
    · rw [if_pos hny]
      have hnyB : ny * (B / ny) = B := by field_simp <;> ring
      have hnyB2 : ny * (-B / ny) = -B := by field_simp <;> ring
      have h3 := minSpecO_step (0 < B / ny ∧ |nx * (B / ny)| ≤ A) (B / ny)
        (minSpecO_none (K := K))
      have h4 := minSpecO_step (0 < -B / ny ∧ |nx * (-B / ny)| ≤ A) (-B / ny) h3
      have hiff : ∀ u : K,
          ((False ∨ (0 < B / ny ∧ |nx * (B / ny)| ≤ A) ∧ u = B / ny) ∨
            (0 < -B / ny ∧ |nx * (-B / ny)| ≤ A) ∧ u = -B / ny) ↔
          (0 < u ∧ ((|nx * u| = A ∧ |ny * u| ≤ B) ∨ (|ny * u| = B ∧ |nx * u| ≤ A))) := by
        intro u
        constructor
        · intro h
          rcases h with (h | ⟨⟨hg1, hg2⟩, he⟩) | ⟨⟨hg1, hg2⟩, he⟩
          · exact absurd h (by simp)
          · subst he
            exact ⟨hg1, Or.inr ⟨by rw [hnyB, abs_of_pos hB], hg2⟩⟩
          · subst he
            exact ⟨hg1, Or.inr ⟨by rw [hnyB2, abs_neg, abs_of_pos hB], hg2⟩⟩
        · rintro ⟨hu, hE | hE⟩
          · exfalso
            have := hE.1
            rw [hnx0, zero_mul, abs_zero] at this
            exact (ne_of_gt hA) this.symm
          · rcases (abs_eq hB.le).mp hE.1 with h | h
            · have hu' : u = B / ny := by rw [eq_div_iff hny, mul_comm]; exact h
              exact Or.inl (Or.inr ⟨⟨hu' ▸ hu, hu' ▸ hE.2⟩, hu'⟩)
            · have hu' : u = -B / ny := by rw [eq_div_iff hny, mul_comm]; exact h
              exact Or.inr ⟨⟨hu' ▸ hu, hu' ▸ hE.2⟩, hu'⟩
      have hspec := minSpecO_congr h4 hiff
      obtain ⟨t, hto, ⟨ht0, htedge⟩, htmin⟩ := minSpecO_conclude hspec hu0
      exact ⟨t, hto, ht0, htedge, fun u h1 h2 => htmin u ⟨h1, h2⟩⟩
    · exfalso
      have hny0 : ny = 0 := not_not.mp hny
      rcases hout with h | h
      · rw [hnx0, abs_zero, mul_zero] at h
        exact absurd h (by linarith)
      · rw [hny0, abs_zero, mul_zero] at h
        exact absurd h (by linarith)

/-- C3: for a registered rectangle-shaped node with positive width and
height and a target strictly outside the rectangle, `getNodeBoundaryPoint`
returns the ray point `center + t·(dx/s, dy/s)` for the smallest positive
parameter `t` whose crossing lies on one of the four edges (offset equal to
one half-extent, within the other), and targeting the node's own center
returns the center.  `s` abstracts `Math.sqrt` of the squared distance. -/
theorem claim_C3_rectangle_boundary {K : Type} [LinearOrderedField K]
    (M : MathModel K) (cs : CoordinateSystem K) (name : String) (node : NodeData K)
    (target : Point K) (s : K)
    (hlook : cs.nodes.lookup name = some node)
    (hshape : node.shape = "rectangle")
    (hwpos : 0 < node.width) (hhpos : 0 < node.height)
    (hs : s = M.sqrt ((target.x - node.center.x) * (target.x - node.center.x) +
      (target.y - node.center.y) * (target.y - node.center.y)))
    (hspos : 0 < s)
    (houtside : node.width / 2 < |target.x - node.center.x| ∨
      node.height / 2 < |target.y - node.center.y|) :
    getNodeBoundaryPoint M cs name node.center = node.center ∧
    ∃ t : K, 0 < t ∧
      getNodeBoundaryPoint M cs name target =
        ⟨node.center.x + (target.x - node.center.x) / s * t,
         node.center.y + (target.y - node.center.y) / s * t⟩ ∧
      ((|(target.x - node.center.x) / s * t| = node.width / 2 ∧
        |(target.y - node.center.y) / s * t| ≤ node.height / 2) ∨
       (|(target.y - node.center.y) / s * t| = node.height / 2 ∧
        |(target.x - node.center.x) / s * t| ≤ node.width / 2)) ∧
      (∀ u : K, 0 < u →
        ((|(target.x - node.center.x) / s * u| = node.width / 2 ∧
          |(target.y - node.center.y) / s * u| ≤ node.height / 2) ∨
         (|(target.y - node.center.y) / s * u| = node.height / 2 ∧
          |(target.x - node.center.x) / s * u| ≤ node.width / 2)) → t ≤ u) := by
  constructor
  · unfold getNodeBoundaryPoint
    rw [hlook]
    dsimp only
    rw [if_pos ⟨by ring, by ring⟩]
  · have habs : ∀ v : K, s * |v / s| = |v| := by
      intro v
      rw [abs_div, abs_of_pos hspos]
      field_simp
    have hout' : node.width / 2 < s * |(target.x - node.center.x) / s| ∨
        node.height / 2 < s * |(target.y - node.center.y) / s| := by
      rcases houtside with h | h
      · exact Or.inl (by rw [habs]; exact h)
      · exact Or.inr (by rw [habs]; exact h)
    obtain ⟨t, heq, ht0, htedge, htmin⟩ := rectMinCandidate s
      ((target.x - node.center.x) / s) ((target.y - node.center.y) / s)
      (node.width / 2) (node.height / 2)
      (by linarith) (by linarith) hspos hout'
    have hne : ¬(target.x - node.center.x = 0 ∧ target.y - node.center.y = 0) := by
      rintro ⟨h1, h2⟩
      rcases houtside with h | h
      · rw [h1, abs_zero] at h
        linarith
      · rw [h2, abs_zero] at h
        linarith
    refine ⟨t, ht0, ?_, htedge, htmin⟩
    unfold getNodeBoundaryPoint
    rw [hlook]
    dsimp only
    rw [if_neg hne]
    rw [if_neg (by rw [hshape]; decide), if_neg (by rw [hshape]; decide)]
    rw [← hs]
    dsimp only at heq
    rw [heq]

def c3CS : CoordinateSystem ℚ :=
  { CoordinateSystem.init with nodes := [("r", ⟨⟨0, 0⟩, [], "rectangle", 2, 2⟩)] }

/-- The C3 theorem at a concrete model: a 2×2 rectangle at the origin,
target (3,4); the boundary point is reached at the top edge. -/
theorem claim_C3_witness :
    getNodeBoundaryPoint c4Model c3CS "r" ⟨0, 0⟩ = ⟨0, 0⟩ ∧
    ∃ t : ℚ, 0 < t ∧
      getNodeBoundaryPoint c4Model c3CS "r" ⟨3, 4⟩ =
        ⟨0 + (3 - 0) / 5 * t, 0 + (4 - 0) / 5 * t⟩ ∧
      ((|(3 - 0) / 5 * t| = 2 / 2 ∧ |(4 - 0) / 5 * t| ≤ 2 / 2) ∨
       (|(4 - 0) / 5 * t| = 2 / 2 ∧ |(3 - 0) / 5 * t| ≤ 2 / 2)) ∧
      (∀ u : ℚ, 0 < u →
        ((|(3 - 0) / 5 * u| = 2 / 2 ∧ |(4 - 0) / 5 * u| ≤ 2 / 2) ∨
         (|(4 - 0) / 5 * u| = 2 / 2 ∧ |(3 - 0) / 5 * u| ≤ 2 / 2)) → t ≤ u) :=
  claim_C3_rectangle_boundary c4Model c3CS "r" ⟨⟨0, 0⟩, [], "rectangle", 2, 2⟩ ⟨3, 4⟩ 5
    (by with_unfolding_all decide) rfl (by norm_num) (by norm_num)
    (by with_unfolding_all decide) (by norm_num)
    (Or.inl (by rw [show ((3 : ℚ) - 0) = 3 from by norm_num,
      show |(3 : ℚ)| = 3 from by rw [abs_of_pos] <;> norm_num]; norm_num))

end TikZ
